import Mathlib

/-!
Verification of the MonitorMELI extraction and reporting layer

Shallow embedding, in Lean 4, of the string-processing core of the
MonitorMELI repository (a MercadoLibre listing monitor written in
TypeScript):

* `src/unnamed/part_000` — plain-HTML parser `parseHtmlForSku` (nullable
  variant) together with its helpers `sliceRowForSku` and `clean`;
* `src/unnamed/part_001` — the second plain-HTML parser `parseHtmlForSku`
  (total variant), the two `pickItemIdFromHref` copies, `readSkusCsv`,
  `recordsToCsv`, `itemUrl` and the report table ordering `tableFor`;
* `src/src/extract.ts` — `clean` and `pickItemId`;
* `src/src/report.ts` — `summarize` and the table ordering `tableFor`.

JavaScript regular expressions are embedded by hand-written backtracking
matchers over `List Char` that mirror the engine's leftmost-match,
greedy/lazy and word-boundary semantics for the concrete patterns used by
the source.  Case-insensitive (`i` flag) matching is modelled by ASCII
case folding, which is exact for the ASCII patterns appearing in the code.
All definitions are executable by kernel reduction (structural or fuelled
recursion only), so every concrete claim below is settled by `decide`.
-/

set_option maxRecDepth 2000000

namespace MonitorMELI


/-! ## Character classes (JS `\s`, `\w`, `\d`) and case folding -/

/-- JS `\s`: the ECMAScript WhiteSpace and LineTerminator characters, as
matched by `\s` in a regular expression and removed by `String.trim`. -/
def isJsWs (c : Char) : Bool :=
  let n := c.toNat
  (9 ≤ n && n ≤ 13) || n == 32 || n == 160 || n == 0x1680 ||
    (0x2000 ≤ n && n ≤ 0x200A) || n == 0x2028 || n == 0x2029 ||
    n == 0x202F || n == 0x205F || n == 0x3000 || n == 0xFEFF

/-- JS `\w`: `[A-Za-z0-9_]` (ASCII word characters, used by `\b`). -/
def isWordChar (c : Char) : Bool :=
  let n := c.toNat
  (97 ≤ n && n ≤ 122) || (65 ≤ n && n ≤ 90) || (48 ≤ n && n ≤ 57) ||
    n == 95

/-- JS `\d`: the ASCII decimal digits. -/
def isDigitA (c : Char) : Bool := 48 ≤ c.toNat && c.toNat ≤ 57

/-- Word-character test for the character preceding / following a
position; `none` (start or end of input) counts as a non-word position. -/
def isWordO : Option Char → Bool
  | none => false
  | some c => isWordChar c

/-- ASCII case-insensitive character comparison, modelling the JS `i`
regular-expression flag on the ASCII patterns used by this repository. -/
def ciEq (a b : Char) : Bool :=
  a == b ||
    (65 ≤ a.toNat && a.toNat ≤ 90 && a.toNat + 32 == b.toNat) ||
    (65 ≤ b.toNat && b.toNat ≤ 90 && b.toNat + 32 == a.toNat)

/-- Case-sensitive character comparison (patterns without the `i` flag). -/
def csEq (a b : Char) : Bool := a == b

/-! ## `clean` (src/src/extract.ts, src/unnamed/part_000, part_001)

```ts
function clean(s?: string | null) {
  return (s || "").replace(/\s+/g, " ").trim();
}
```
-/

/-- Embeds `replace(/\s+/g, " ")`: each maximal run of whitespace characters is
replaced by a single space.  The boolean records whether the previous
character belonged to a whitespace run already replaced. -/
def collapseWs : Bool → List Char → List Char
  | _, [] => []
  | prevWs, c :: cs =>
    if isJsWs c then
      if prevWs then collapseWs true cs else ' ' :: collapseWs true cs
    else c :: collapseWs false cs

/-- JS `String.trim` on the left: drop leading whitespace. -/
def trimLeftWs : List Char → List Char
  | [] => []
  | c :: cs => if isJsWs c then trimLeftWs cs else c :: cs

/-- One step of right trimming: prepend `c` to an already right-trimmed
tail; if the tail vanished, `c` itself is dropped when it is whitespace. -/
def trimRightCons (c : Char) : List Char → List Char
  | [] => if isJsWs c then [] else [c]
  | d :: t => c :: d :: t

/-- JS `String.trim` on the right: drop trailing whitespace. -/
def trimRightWs : List Char → List Char
  | [] => []
  | c :: cs => trimRightCons c (trimRightWs cs)

/-- Embeds `clean` of src/src/extract.ts (and its identical copies in
src/unnamed/part_000 and part_001), on a present string. -/
def clean (s : String) : String :=
  String.mk (trimRightWs (trimLeftWs (collapseWs false s.data)))

/-- Embeds `clean` applied to a possibly `null`/`undefined` argument:
`(s || "")` maps a missing value to the empty string. -/
def cleanOpt (s : Option String) : String := clean (s.getD "")

/-- No character of the list is whitespace followed directly by another
whitespace character. -/
def noDoubleWs : List Char → Bool
  | [] => true
  | [_] => true
  | a :: b :: t => !(isJsWs a && isJsWs b) && noDoubleWs (b :: t)

/-- The first character, if any, is not whitespace. -/
def headNotWs (l : List Char) : Bool :=
  match l.head? with
  | none => true
  | some c => !isJsWs c

/-- The last character, if any, is not whitespace. -/
def lastNotWs : List Char → Bool
  | [] => true
  | [c] => !isJsWs c
  | _ :: c :: t => lastNotWs (c :: t)

/-- Every whitespace character of the list is a plain space. -/
def wsAreSpaces (l : List Char) : Bool := l.all fun c => !isJsWs c || c == ' '

/-! ## Regular-expression matching primitives

Backtracking matchers over `List Char` modelling the JS engine on the
concrete patterns of this repository: leftmost match, greedy / lazy
repetition with backtracking, and `\b` word boundaries (for which every
matcher threads the character preceding the current position as an
`Option Char`).  A matcher returns the rest of the input after the match
(plus capture data where needed), or `none`. -/

/-- Match a literal pattern under character comparison `eq`; returns the
last input character consumed (for later `\b` tests) and the rest. -/
def stripLitE (eq : Char → Char → Bool) :
    List Char → Option Char → List Char → Option (Option Char × List Char)
  | [], prev, l => some (prev, l)
  | _ :: _, _, [] => none
  | p :: ps, _, c :: cs => if eq p c then stripLitE eq ps (some c) cs else none

/-- Match a case-insensitive literal keeping the input characters matched
(the JS capture keeps the input text, not the pattern text). -/
def stripKeepCI : List Char → List Char → Option (List Char × List Char)
  | [], l => some ([], l)
  | _ :: _, [] => none
  | p :: ps, c :: cs =>
    if ciEq p c then (stripKeepCI ps cs).map (fun r => (c :: r.1, r.2)) else none

/-- Greedy star over a character class with backtracking into the
continuation `k` (longest consumption tried first), as for `[^>]*`. -/
def starG (cls : Char → Bool) (k : Option Char → List Char → Option β) :
    Option Char → List Char → Option β
  | prev, [] => k prev []
  | prev, c :: cs =>
    if cls c then
      match starG cls k (some c) cs with
      | some b => some b
      | none => k prev (c :: cs)
    else k prev (c :: cs)

/-- Lazy star `[\s\S]*?` capturing the skipped characters (shortest
consumption tried first), as in `>([\s\S]*?)<\/a>`. -/
def lazyCap (k : Option Char → List Char → Option β) :
    Option Char → List Char → Option (List Char × β)
  | prev, [] => (k prev []).map (fun b => ([], b))
  | prev, c :: cs =>
    match k prev (c :: cs) with
    | some b => some ([], b)
    | none => (lazyCap k (some c) cs).map (fun r => (c :: r.1, r.2))

/-- Greedy star over a class capturing the consumed characters. -/
def starGCap (cls : Char → Bool) (k : Option Char → List Char → Option β) :
    Option Char → List Char → Option (List Char × β)
  | prev, [] => (k prev []).map (fun b => ([], b))
  | prev, c :: cs =>
    if cls c then
      match starGCap cls k (some c) cs with
      | some r => some (c :: r.1, r.2)
      | none => (k prev (c :: cs)).map (fun b => ([], b))
    else (k prev (c :: cs)).map (fun b => ([], b))

/-- Greedy plus over a class capturing the consumed characters (`[^<]+`). -/
def plusGCap (cls : Char → Bool) (k : Option Char → List Char → Option β) :
    Option Char → List Char → Option (List Char × β)
  | _, [] => none
  | _, c :: cs =>
    if cls c then (starGCap cls k (some c) cs).map (fun r => (c :: r.1, r.2))
    else none

/-- Leftmost-match scan: try the matcher at every position, earliest
starting position first, threading the preceding character. -/
def scanO (m : Option Char → List Char → Option β) :
    Option Char → List Char → Option β
  | prev, [] => m prev []
  | prev, c :: cs =>
    match m prev (c :: cs) with
    | some b => some b
    | none => scanO m (some c) cs

/-- Leftmost-match scan from the start of the input. -/
def scan (m : Option Char → List Char → Option β) (l : List Char) : Option β :=
  scanO m none l

/-- Leftmost-match scan returning the whole matched substring (`match[0]`),
for matchers that return the rest of the input after the match. -/
def scanWholeO (m : Option Char → List Char → Option (List Char)) :
    Option Char → List Char → Option (List Char)
  | prev, [] => (m prev []).map (fun _ => [])
  | prev, c :: cs =>
    match m prev (c :: cs) with
    | some rest => some ((c :: cs).take ((c :: cs).length - rest.length))
    | none => scanWholeO m (some c) cs

/-- Embeds `regex.test`: does the pattern match anywhere in the input? -/
def rtest (m : Option Char → List Char → Option β) (l : List Char) : Bool :=
  (scan m l).isSome

/-- Words separated by `\s+` (greedy, deterministic because the words do
not begin with whitespace), e.g. `Compartiendo\s+primer\s+lugar`. -/
def matchWordsE (eq : Char → Char → Bool) :
    List (List Char) → List Char → Option (List Char)
  | [], l => some l
  | [w], l => (stripLitE eq w none l).map (·.2)
  | w :: w2 :: ws, l =>
    match stripLitE eq w none l with
    | none => none
    | some (_, r) =>
      match r with
      | [] => none
      | c :: cs =>
        if isJsWs c then matchWordsE eq (w2 :: ws) (cs.dropWhile isJsWs)
        else none

/-- The status-text pattern `>\s*W1\s+…\s+Wn\s*<\/` at one position. -/
def compAt (eq : Char → Char → Bool) (ws : List (List Char)) :
    Option Char → List Char → Option Unit := fun _ l =>
  match l with
  | c :: rest =>
    if c = '>' then
      match matchWordsE eq ws (rest.dropWhile isJsWs) with
      | none => none
      | some r =>
        match r.dropWhile isJsWs with
        | a :: b :: _ => if a = '<' ∧ b = '/' then some () else none
        | _ => none
    else none
  | [] => none

/-- Embeds `/>\s*W1\s+…\s+Wn\s*<\//.test(row)` with character comparison `eq`. -/
def compTest (eq : Char → Char → Bool) (ws : List (List Char))
    (l : List Char) : Bool :=
  rtest (compAt eq ws) l

/-! ## Row slicing (`sliceRowForSku`, identical in src/unnamed/part_000
and part_001)

```ts
const rows = html.match(
  /<div class="sc-list-item-row sc-list-item-row--catalog[\s\S]*?<\/div>\s*<\/div>\s*<\/div>/g) || [];
const needle = new RegExp(`\\bSKU\\s*${sku}\\b`, "i");
const row = rows.find((r) => needle.test(r));
```
-/

/-- The literal prefix of the row pattern (case-sensitive; no `i` flag). -/
def rowPfx : List Char :=
  "<div class=\"sc-list-item-row sc-list-item-row--catalog".data

/-- Embeds `<\/div>\s*<\/div>\s*<\/div>` at the current position (greedy `\s*`
is deterministic here because `<` is not whitespace). -/
def closeDivsAt (l : List Char) : Option (List Char) :=
  (stripLitE csEq "</div>".data none l).bind fun r1 =>
  (stripLitE csEq "</div>".data none (r1.2.dropWhile isJsWs)).bind fun r2 =>
  (stripLitE csEq "</div>".data none (r2.2.dropWhile isJsWs)).map (·.2)

/-- Lazy `[\s\S]*?` up to the first position where the three closing
`div`s match; returns the consumed text (middle plus closing) and rest. -/
def lazyCloseDivs : List Char → Option (List Char × List Char)
  | [] => none
  | c :: cs =>
    match closeDivsAt (c :: cs) with
    | some rest => some ((c :: cs).take ((c :: cs).length - rest.length), rest)
    | none => (lazyCloseDivs cs).map (fun r => (c :: r.1, r.2))

/-- One attempt of the row pattern at the current position; returns the
matched row text and the rest of the input after it. -/
def rowMatchAt (l : List Char) : Option (List Char × List Char) :=
  (stripLitE csEq rowPfx none l).bind fun pr =>
  (lazyCloseDivs pr.2).map fun mr => (rowPfx ++ mr.1, mr.2)

/-- Global matching (`/g`): repeatedly find the next row, continuing after
each match; fuelled by the input length (each step consumes a character). -/
def rowsOfGo : Nat → List Char → List (List Char)
  | 0, _ => []
  | fuel + 1, l =>
    match rowMatchAt l with
    | some (row, rest) => row :: rowsOfGo fuel rest
    | none =>
      match l with
      | [] => []
      | _ :: cs => rowsOfGo fuel cs

/-- All row slices of the HTML (`html.match(rowPattern) || []`). -/
def rowsOf (html : String) : List (List Char) :=
  rowsOfGo (html.data.length + 1) html.data

/-- Tail of the needle: the interpolated SKU text (case-insensitively,
because of the `i` flag) followed by a `\b` word boundary. -/
def skuTailB : Char → List Char → List Char → Bool
  | prev, [], rest => isWordO (some prev) != isWordO rest.head?
  | _, _ :: _, [] => false
  | _, p :: ps, c :: cs => ciEq p c && skuTailB c ps cs

/-- Embeds `\s*` before the SKU text, trying every split (the interpolated SKU is
arbitrary here, so greedy backtracking is modelled by the disjunction). -/
def wsSkuB (sku : List Char) : Char → List Char → Bool
  | prev, [] => skuTailB prev sku []
  | prev, c :: cs => skuTailB prev sku (c :: cs) || (isJsWs c && wsSkuB sku c cs)

/-- The needle `\bSKU\s*${sku}\b` (flag `i`) at one position. -/
def needleAt (sku : List Char) : Option Char → List Char → Option Unit :=
  fun prev l =>
    if isWordO prev then none
    else
      match stripLitE ciEq "SKU".data prev l with
      | none => none
      | some (p, r) => if wsSkuB sku (p.getD 'U') r then some () else none

/-- Embeds `needle.test(row)` under the literal-text reading of the
interpolated SKU.  The source splices the SKU into the pattern, so this is
the compiled needle exactly when the SKU text contains no regex
metacharacters (in particular for the all-digit SKUs `readSkusCsv`
produces); `needleTest1Star` below embeds the spliced reading at the
metacharacter SKU `"1*"`, where the two differ. -/
def needleTest (sku : String) (row : List Char) : Bool :=
  rtest (needleAt sku.data) row

/-- Embeds `1*\b` (the tail of the needle compiled at SKU `"1*"`): either
zero `1`s and a word boundary right here, or one more `1` and recurse.
A disjunction of the splits is exact for `test`, which only asks whether
some match exists. -/
def oneStarBTail : Char → List Char → Bool
  | prev, [] => isWordO (some prev) != isWordO (none : Option Char)
  | prev, c :: cs =>
    (isWordO (some prev) != isWordO (some c)) || (c == '1' && oneStarBTail c cs)

/-- Embeds `\s*1*\b`, trying every split of the whitespace run. -/
def wsOneStar : Char → List Char → Bool
  | prev, [] => oneStarBTail prev []
  | prev, c :: cs => oneStarBTail prev (c :: cs) || (isJsWs c && wsOneStar c cs)

/-- Embeds the needle regex the source builds at SKU `"1*"`: splicing into
`new RegExp` makes the pattern `\bSKU\s*1*\b` (flag `i`), in which the
spliced `1*` is a quantifier matching any run of `1`s, the empty run
included — not the two-character literal text `1*`. -/
def needle1StarAt : Option Char → List Char → Option Unit :=
  fun prev l =>
    if isWordO prev then none
    else
      match stripLitE ciEq "SKU".data prev l with
      | none => none
      | some (p, r) => if wsOneStar (p.getD 'U') r then some () else none

/-- Embeds `needle.test(row)` for the needle compiled at SKU `"1*"`. -/
def needleTest1Star (row : List Char) : Bool := rtest needle1StarAt row

/-- Embeds `sliceRowForSku` of src/unnamed/part_000 (and its identical copy in
part_001): the first row slice containing the SKU needle, if any. -/
def sliceRowForSku (html sku : String) : Option (List Char) :=
  (rowsOf html).find? (needleTest sku)

/-! ## Item-id extraction

`/(?:\?|&)itemId=(MLU\d{6,})\b/i` in src/unnamed/part_000 and in
src/src/extract.ts (`pickItemId`); the copy in src/unnamed/part_001 line
338 lacks the trailing `\b`, which the `reqB` flag records. -/

/-- The item-id pattern at one position.  Greedy `\d{6,}` followed by `\b`
is the maximal digit run (shrinking the run can never restore a word
boundary between two digits), of length at least 6, whose follower is not
a word character. -/
def itemIdCapAt (reqB : Bool) : Option Char → List Char → Option (List Char) :=
  fun _ l =>
    match l with
    | c :: cs =>
      if c == '?' || c == '&' then
        (stripLitE ciEq "itemId=".data none cs).bind fun pr =>
        (stripKeepCI "MLU".data pr.2).bind fun mr =>
        let ds := mr.2.takeWhile isDigitA
        let rest := mr.2.dropWhile isDigitA
        if 6 ≤ ds.length && (!reqB || !isWordO rest.head?) then
          some (mr.1 ++ ds)
        else none
      else none
    | [] => none

/-- Leftmost item-id match over the whole text (`row.match(...)?.[1]`). -/
def itemIdScan (reqB : Bool) (row : List Char) : Option (List Char) :=
  scan (itemIdCapAt reqB) row

/-- The JSON fallbacks of part_001 line 339:
`/"itemId"\s*:\s*"(MLU\d+)"/i` and `/"item_id"\s*:\s*"(MLU\d+)"/i`. -/
def jsonItemIdAt (key : List Char) : Option Char → List Char → Option (List Char) :=
  fun _ l =>
    match l with
    | '"' :: cs =>
      (stripLitE ciEq key none cs).bind fun pr =>
      match pr.2 with
      | '"' :: r1 =>
        match r1.dropWhile isJsWs with
        | ':' :: r3 =>
          match r3.dropWhile isJsWs with
          | '"' :: r5 =>
            (stripKeepCI "MLU".data r5).bind fun mr =>
            let ds := mr.2.takeWhile isDigitA
            let rest := mr.2.dropWhile isDigitA
            if 1 ≤ ds.length && rest.head? == some '"' then some (mr.1 ++ ds)
            else none
          | _ => none
        | _ => none
      | _ => none
    | _ => none

/-! ## Competitive status (`estado_competencia`) -/

/-- Embeds `/>\s*Ganando\s*<\//i.test(row)`. -/
def hayGanando (row : List Char) : Bool := compTest ciEq ["Ganando".data] row

/-- Embeds `/>\s*Perdiendo\s*<\//i.test(row)`. -/
def hayPerdiendo (row : List Char) : Bool :=
  compTest ciEq ["Perdiendo".data] row

/-- Embeds `/>\s*Compartiendo\s+primer\s+lugar\s*<\//i.test(row)`. -/
def hayCompartiendo (row : List Char) : Bool :=
  compTest ciEq ["Compartiendo".data, "primer".data, "lugar".data] row

/-- Embeds `/>\s*COMPITIENDO\s*<\//.test(row)` (no `i` flag: case-sensitive). -/
def hayCompitiendoCS (row : List Char) : Bool :=
  compTest csEq ["COMPITIENDO".data] row

/-- The `estado_competencia` cascade of src/unnamed/part_000 lines 53-56. -/
def estadoCompetencia000 (row : List Char) : String :=
  if hayGanando row then "Ganando"
  else if hayPerdiendo row then "Perdiendo"
  else if hayCompartiendo row then "Compartiendo primer lugar"
  else if hayCompitiendoCS row then "Compartiendo primer lugar"
  else "SIN_ESTADO"

/-- The `estado_competencia` cascade of src/unnamed/part_001 lines
360-371 (each branch additionally tries an all-uppercase case-sensitive
variant). -/
def estadoCompetencia001 (row : List Char) : String :=
  if hayGanando row || compTest csEq ["GANANDO".data] row then "Ganando"
  else if hayPerdiendo row || compTest csEq ["PERDIENDO".data] row then
    "Perdiendo"
  else if hayCompartiendo row || hayCompitiendoCS row then
    "Compartiendo primer lugar"
  else "SIN_ESTADO"

/-! ## Title extraction -/

/-- The anchor class name used for the title. -/
def titleCls : List Char := "sc-list-item-row-description__title".data

/-- part_000 title pattern 1:
`/<a[^>]*class="[^"]*\btitleCls\b[^"]*"[^>]*>([\s\S]*?)<\/a>/i`
at one position; returns the captured inner HTML. -/
def titleAat : Option Char → List Char → Option (List Char) := fun prev l =>
  (stripLitE ciEq "<a".data prev l).bind fun r1 =>
  starG (fun c => c != '>')
    (fun p2 r2 =>
      (stripLitE ciEq "class=\"".data p2 r2).bind fun r3 =>
      starG (fun c => c != '"')
        (fun p4 r4 =>
          if isWordO p4 then none
          else
            (stripLitE ciEq titleCls p4 r4).bind fun r5 =>
            if isWordO r5.2.head? then none
            else
              starG (fun c => c != '"')
                (fun p6 r6 =>
                  (stripLitE ciEq "\"".data p6 r6).bind fun r7 =>
                  starG (fun c => c != '>')
                    (fun p8 r8 =>
                      (stripLitE ciEq ">".data p8 r8).bind fun r9 =>
                      (lazyCap
                        (fun p10 r10 =>
                          (stripLitE ciEq "</a>".data p10 r10).map (·.2))
                        r9.1 r9.2).map (·.1))
                    r7.1 r7.2)
                r5.1 r5.2)
        r3.1 r3.2)
    r1.1 r1.2

/-- part_000 title pattern 2 (fallback):
`/class="titleCls"[^>]*>([\s\S]*?)<\/a>/i` at one position. -/
def titleBat : Option Char → List Char → Option (List Char) := fun prev l =>
  (stripLitE ciEq ("class=\"" ++ "sc-list-item-row-description__title" ++ "\"").data
      prev l).bind fun r1 =>
  starG (fun c => c != '>')
    (fun p2 r2 =>
      (stripLitE ciEq ">".data p2 r2).bind fun r3 =>
      (lazyCap
        (fun p r => (stripLitE ciEq "</a>".data p r).map (·.2))
        r3.1 r3.2).map (·.1))
    r1.1 r1.2

/-- Embeds `inner.replace(/<[^>]+>/g, " ")`: each tag-like fragment becomes a
single space (fuelled global replace). -/
def stripTagsGo : Nat → List Char → List Char
  | 0, _ => []
  | _ + 1, [] => []
  | fuel + 1, c :: cs =>
    if c == '<' then
      let run := cs.takeWhile (fun d => d != '>')
      let rest := cs.dropWhile (fun d => d != '>')
      if 1 ≤ run.length && rest.head? == some '>' then
        ' ' :: stripTagsGo fuel rest.tail
      else c :: stripTagsGo fuel cs
    else c :: stripTagsGo fuel cs

/-- Embeds `replace(/<[^>]+>/g, " ")`. -/
def stripTags (l : List Char) : List Char := stripTagsGo (l.length + 1) l

/-- part_000 title: first pattern, else fallback pattern; tags stripped
from the captured inner HTML and the text cleaned (lines 61-68). -/
def titulo000 (row : List Char) : String :=
  match (scan titleAat row).orElse (fun _ => scan titleBat row) with
  | some inner => clean (String.mk (stripTags inner))
  | none => ""

/-- part_001 title pattern 1:
`/<a[^>]*class="titleCls"[^>]*>([^<]+)<\/a>/i` at one position. -/
def title1at001 : Option Char → List Char → Option (List Char) := fun prev l =>
  (stripLitE ciEq "<a".data prev l).bind fun r1 =>
  starG (fun c => c != '>')
    (fun p2 r2 =>
      (stripLitE ciEq ("class=\"" ++ "sc-list-item-row-description__title" ++ "\"").data
          p2 r2).bind fun r3 =>
      starG (fun c => c != '>')
        (fun p4 r4 =>
          (stripLitE ciEq ">".data p4 r4).bind fun r5 =>
          (plusGCap (fun c => c != '<')
            (fun p6 r6 => (stripLitE ciEq "</a>".data p6 r6).map (·.2))
            r5.1 r5.2).map (·.1))
        r3.1 r3.2)
    r1.1 r1.2

/-- part_001 title pattern 2:
`/<a[^>]*class="[^"]*titleCls[^"]*"[^>]*>([^<]+)<\/a>/i` (no `\b`). -/
def title2at001 : Option Char → List Char → Option (List Char) := fun prev l =>
  (stripLitE ciEq "<a".data prev l).bind fun r1 =>
  starG (fun c => c != '>')
    (fun p2 r2 =>
      (stripLitE ciEq "class=\"".data p2 r2).bind fun r3 =>
      starG (fun c => c != '"')
        (fun p4 r4 =>
          (stripLitE ciEq titleCls p4 r4).bind fun r5 =>
          starG (fun c => c != '"')
            (fun p6 r6 =>
              (stripLitE ciEq "\"".data p6 r6).bind fun r7 =>
              starG (fun c => c != '>')
                (fun p8 r8 =>
                  (stripLitE ciEq ">".data p8 r8).bind fun r9 =>
                  (plusGCap (fun c => c != '<')
                    (fun p10 r10 =>
                      (stripLitE ciEq "</a>".data p10 r10).map (·.2))
                    r9.1 r9.2).map (·.1))
                r7.1 r7.2)
            r5.1 r5.2)
        r3.1 r3.2)
    r1.1 r1.2

/-- part_001 href pattern 1:
`/<a[^>]*class="titleCls"[^>]*href="([^"]+)"/i` at one position. -/
def href1at001 : Option Char → List Char → Option (List Char) := fun prev l =>
  (stripLitE ciEq "<a".data prev l).bind fun r1 =>
  starG (fun c => c != '>')
    (fun p2 r2 =>
      (stripLitE ciEq ("class=\"" ++ "sc-list-item-row-description__title" ++ "\"").data
          p2 r2).bind fun r3 =>
      starG (fun c => c != '>')
        (fun p4 r4 =>
          (stripLitE ciEq "href=\"".data p4 r4).bind fun r5 =>
          (plusGCap (fun c => c != '"')
            (fun p6 r6 => (stripLitE ciEq "\"".data p6 r6).map (·.2))
            r5.1 r5.2).map (·.1))
        r3.1 r3.2)
    r1.1 r1.2

/-- part_001 href pattern 2:
`/<a[^>]*class="[^"]*titleCls[^"]*"[^>]*href="([^"]+)"/i`. -/
def href2at001 : Option Char → List Char → Option (List Char) := fun prev l =>
  (stripLitE ciEq "<a".data prev l).bind fun r1 =>
  starG (fun c => c != '>')
    (fun p2 r2 =>
      (stripLitE ciEq "class=\"".data p2 r2).bind fun r3 =>
      starG (fun c => c != '"')
        (fun p4 r4 =>
          (stripLitE ciEq titleCls p4 r4).bind fun r5 =>
          starG (fun c => c != '"')
            (fun p6 r6 =>
              (stripLitE ciEq "\"".data p6 r6).bind fun r7 =>
              starG (fun c => c != '>')
                (fun p8 r8 =>
                  (stripLitE ciEq "href=\"".data p8 r8).bind fun r9 =>
                  (plusGCap (fun c => c != '"')
                    (fun p10 r10 =>
                      (stripLitE ciEq "\"".data p10 r10).map (·.2))
                    r9.1 r9.2).map (·.1))
                r7.1 r7.2)
            r5.1 r5.2)
        r3.1 r3.2)
    r1.1 r1.2

/-! ## SKU revalidation (`/\bSKU\s+(\d{1,})\b/i`, part_000 line 71 and
part_001 line 374) -/

/-- The SKU revalidation pattern at one position; captures the digits. -/
def skuRevalAt : Option Char → List Char → Option (List Char) := fun prev l =>
  if isWordO prev then none
  else
    (stripLitE ciEq "SKU".data prev l).bind fun r1 =>
    match r1.2 with
    | c :: cs =>
      if isJsWs c then
        let r2 := cs.dropWhile isJsWs
        let ds := r2.takeWhile isDigitA
        let rest := r2.dropWhile isDigitA
        if 1 ≤ ds.length && !isWordO rest.head? then some ds else none
      else none
    | [] => none

/-- Embeds `row.match(/\bSKU\s+(\d{1,})\b/i)`: revalidated SKU or the fallback. -/
def skuReval (row : List Char) (fallback : String) : String :=
  match scan skuRevalAt row with
  | some ds => String.mk ds
  | none => fallback

/-! ## Operational status (`estado_operativo`) -/

/-- Embeds `/sc-list-item-status-switch__label[^>]*>\s*WORD\s*</i` at one
position (`[^>]*>` is deterministic because the class excludes `>`). -/
def labelAt (word : List Char) : Option Char → List Char → Option Unit :=
  fun prev l =>
    (stripLitE ciEq "sc-list-item-status-switch__label".data prev l).bind
      fun r1 =>
    match r1.2.dropWhile (fun c => c != '>') with
    | '>' :: r3 =>
      (stripLitE ciEq word none (r3.dropWhile isJsWs)).bind fun r4 =>
      match r4.2.dropWhile isJsWs with
      | '<' :: _ => some ()
      | _ => none
    | _ => none

/-- Tier-1 explicit status label test. -/
def labelTest (word : String) (row : List Char) : Bool :=
  rtest (labelAt word.data) row

/-- Embeds `/sc-list-item-row[^"]*--SUFFIX/i` at one position. -/
def rowClassAt (suffix : List Char) : Option Char → List Char → Option Unit :=
  fun prev l =>
    (stripLitE ciEq "sc-list-item-row".data prev l).bind fun r1 =>
    starG (fun c => c != '"')
      (fun p2 r2 => (stripLitE ciEq suffix p2 r2).map (fun _ => ()))
      r1.1 r1.2

/-- Tier-2 row modifier-class test. -/
def rowClassTest (suffix : String) (row : List Char) : Bool :=
  rtest (rowClassAt suffix.data) row

/-- Switch-block pattern 1 of part_000 line 88:
`/<label[^>]*class="[^"]*sc-list-item-status-switch__switch[^"]*"[^>]*>[\s\S]*?<\/label>/i`;
returns the rest of the input after the whole match. -/
def switchLabelAt : Option Char → List Char → Option (List Char) :=
  fun prev l =>
    (stripLitE ciEq "<label".data prev l).bind fun r1 =>
    starG (fun c => c != '>')
      (fun p2 r2 =>
        (stripLitE ciEq "class=\"".data p2 r2).bind fun r3 =>
        starG (fun c => c != '"')
          (fun p4 r4 =>
            (stripLitE ciEq "sc-list-item-status-switch__switch".data p4
                r4).bind fun r5 =>
            starG (fun c => c != '"')
              (fun p6 r6 =>
                (stripLitE ciEq "\"".data p6 r6).bind fun r7 =>
                starG (fun c => c != '>')
                  (fun p8 r8 =>
                    (stripLitE ciEq ">".data p8 r8).bind fun r9 =>
                    (lazyCap
                      (fun p10 r10 =>
                        (stripLitE ciEq "</label>".data p10 r10).map (·.2))
                      r9.1 r9.2).map (·.2))
                  r7.1 r7.2)
              r5.1 r5.2)
          r3.1 r3.2)
      r1.1 r1.2

/-- Switch-block pattern 2 of part_000 line 89:
`/<div[^>]*class="[^"]*sc-list-item-status-switch[^"]*"[^>]*>[\s\S]*?<\/div>/i`. -/
def switchDivAt : Option Char → List Char → Option (List Char) :=
  fun prev l =>
    (stripLitE ciEq "<div".data prev l).bind fun r1 =>
    starG (fun c => c != '>')
      (fun p2 r2 =>
        (stripLitE ciEq "class=\"".data p2 r2).bind fun r3 =>
        starG (fun c => c != '"')
          (fun p4 r4 =>
            (stripLitE ciEq "sc-list-item-status-switch".data p4 r4).bind
              fun r5 =>
            starG (fun c => c != '"')
              (fun p6 r6 =>
                (stripLitE ciEq "\"".data p6 r6).bind fun r7 =>
                starG (fun c => c != '>')
                  (fun p8 r8 =>
                    (stripLitE ciEq ">".data p8 r8).bind fun r9 =>
                    (lazyCap
                      (fun p10 r10 =>
                        (stripLitE ciEq "</div>".data p10 r10).map (·.2))
                      r9.1 r9.2).map (·.2))
                  r7.1 r7.2)
              r5.1 r5.2)
          r3.1 r3.2)
      r1.1 r1.2

/-- Embeds `match1?.[0] || match2?.[0] || ""` (part_000 lines 87-90). -/
def switchBlockOf (row : List Char) : List Char :=
  ((scanWholeO switchLabelAt none row).orElse
    (fun _ => scanWholeO switchDivAt none row)).getD []

/-- Single quote character (avoiding an escaped literal). -/
def sq : Char := Char.ofNat 39

/-- Embeds `role=["']switch["'][^>]*` followed by the continuation `k`. -/
def roleSwitchThen (k : Option Char → List Char → Option Unit) :
    Option Char → List Char → Option Unit := fun prev l =>
  (stripLitE ciEq "role=".data prev l).bind fun r1 =>
  match r1.2 with
  | q :: r2 =>
    if q == '"' || q == sq then
      (stripLitE ciEq "switch".data (some q) r2).bind fun r3 =>
      match r3.2 with
      | q2 :: r4 =>
        if q2 == '"' || q2 == sq then starG (fun c => c != '>') k (some q2) r4
        else none
      | [] => none
    else none
  | [] => none

/-- Embeds `/role=["']switch["'][^>]*\bchecked\b/i.test(block)`. -/
def swChecked (block : List Char) : Bool :=
  rtest
    (roleSwitchThen fun p r =>
      if isWordO p then none
      else
        (stripLitE ciEq "checked".data p r).bind fun rr =>
        if isWordO rr.2.head? then none else some ())
    block

/-- Embeds `aria-checked=["']VAL["']` continuation for value `val`. -/
def ariaCheckedIs (val : List Char) :
    Option Char → List Char → Option Unit := fun p r =>
  (stripLitE ciEq "aria-checked=".data p r).bind fun r1 =>
  match r1.2 with
  | q :: r2 =>
    if q == '"' || q == sq then
      (stripLitE ciEq val (some q) r2).bind fun r3 =>
      match r3.2 with
      | q2 :: _ => if q2 == '"' || q2 == sq then some () else none
      | [] => none
    else none
  | [] => none

/-- Embeds `/role=["']switch["'][^>]*aria-checked=["']true["']/i.test(block)`. -/
def swAriaTrue (block : List Char) : Bool :=
  rtest (roleSwitchThen (ariaCheckedIs "true".data)) block

/-- Embeds `/role=["']switch["'][^>]*aria-checked=["']false["']/i.test(block)`. -/
def swAriaFalse (block : List Char) : Bool :=
  rtest (roleSwitchThen (ariaCheckedIs "false".data)) block

/-- The three-tier `estado_operativo` cascade of src/unnamed/part_000
lines 74-105: explicit label, then row modifier classes, then the switch
block's `checked` / `aria-checked` state. -/
def estadoOperativo000 (row : List Char) : String :=
  if labelTest "Activa" row then "Activa"
  else if labelTest "Pausada" row then "Pausada"
  else if labelTest "Inactiva" row then "Inactiva"
  else if rowClassTest "--active" row then "Activa"
  else if rowClassTest "--paused" row then "Pausada"
  else if rowClassTest "--inactive" row then "Inactiva"
  else
    let sb := switchBlockOf row
    if sb.isEmpty then "UNKNOWN"
    else if swChecked sb then "Activa"
    else if swAriaTrue sb then "Activa"
    else if swAriaFalse sb then "Pausada"
    else "UNKNOWN"

/-- The label-only `estado_operativo` cascade of src/unnamed/part_001
lines 354-357 (order: Activa, Inactiva, Pausada). -/
def estadoOperativo001 (row : List Char) : String :=
  if labelTest "Activa" row then "Activa"
  else if labelTest "Inactiva" row then "Inactiva"
  else if labelTest "Pausada" row then "Pausada"
  else "UNKNOWN"

/-! ## The two plain-HTML parsers -/

/-- Embeds `ParsedRecord` of src/unnamed/part_000.  The two status fields are
embedded as strings (the TS type is a union of string literals), so that
which strings the parser can produce is a theorem, not a typing axiom. -/
structure ParsedRecord where
  sku : String
  itemId : String
  estado_competencia : String
  estado_operativo : String
  titulo : String
deriving Repr, DecidableEq

/-- Embeds `parseHtmlForSku` of src/unnamed/part_000 lines 33-110. -/
def parseHtmlForSku000 (html fallbackSku : String) : Option ParsedRecord :=
  match sliceRowForSku html fallbackSku with
  | none => none
  | some row =>
    let itemId :=
      match itemIdScan true row with
      | some c => String.mk c
      | none => ""
    let comp := estadoCompetencia000 row
    let titulo := titulo000 row
    let sku := skuReval row fallbackSku
    let op := estadoOperativo000 row
    if itemId != "" || titulo != "" || sku != fallbackSku then
      some ⟨sku, itemId, comp, op, titulo⟩
    else none

/-- Embeds `parseHtmlForSku` of src/unnamed/part_000 parameterized by the
compiled needle predicate.  The source builds the needle by splicing the
SKU text into a pattern, `new RegExp` of `\bSKU\s*` + sku + `\b` with flag
`i`, so the row-finding predicate is a function of the SKU's reading as a
regex; `parseHtmlForSku000` is this parser at the literal-text reading
`needleTest`, which is the compiled needle whenever the SKU has no regex
metacharacters (e.g. for all-digit SKUs). -/
def parseHtmlForSku000Gen (ntest : List Char → Bool)
    (html fallbackSku : String) : Option ParsedRecord :=
  match (rowsOf html).find? ntest with
  | none => none
  | some row =>
    let itemId :=
      match itemIdScan true row with
      | some c => String.mk c
      | none => ""
    let comp := estadoCompetencia000 row
    let titulo := titulo000 row
    let sku := skuReval row fallbackSku
    let op := estadoOperativo000 row
    if itemId != "" || titulo != "" || sku != fallbackSku then
      some ⟨sku, itemId, comp, op, titulo⟩
    else none

/-- A page whose single row slice contains `SKU 5` and a title. -/
def pageSkuFive : String :=
  "<div class=\"sc-list-item-row sc-list-item-row--catalog\"><span>SKU 5</span><a class=\"sc-list-item-row-description__title\">Foo</a></div></div></div>"

/-- Embeds `ParsedRecord` of the third block of src/unnamed/part_001 (lines
298-305), which additionally carries `url_item`. -/
structure ParsedRecordU where
  sku : String
  itemId : String
  estado_competencia : String
  estado_operativo : String
  titulo : String
  url_item : String
deriving Repr, DecidableEq

/-- Item-id logic of part_001 lines 338-340: row match without `\b`,
then the two JSON fallbacks over the whole HTML. -/
def itemId001 (row html : List Char) : String :=
  match itemIdScan false row with
  | some c => String.mk c
  | none =>
    match
      (scan (jsonItemIdAt "itemId".data) html).orElse
        (fun _ => scan (jsonItemIdAt "item_id".data) html)
    with
    | some c => String.mk c
    | none => ""

/-- Embeds `parseHtmlForSku` of src/unnamed/part_001 lines 323-378 (total: when
no row slice matches, the whole HTML is used as the row). -/
def parseHtmlForSku001 (html fallbackSku : String) : ParsedRecordU :=
  let row := (sliceRowForSku html fallbackSku).getD html.data
  let itemId := itemId001 row html.data
  let titulo :=
    match (scan title1at001 row).orElse (fun _ => scan title2at001 row) with
    | some cap => clean (String.mk cap)
    | none => ""
  let url :=
    match (scan href1at001 row).orElse (fun _ => scan href2at001 row) with
    | some cap => String.mk cap
    | none => ""
  let op := estadoOperativo001 row
  let comp := estadoCompetencia001 row
  let sku := skuReval row fallbackSku
  ⟨sku, itemId, comp, op, titulo, url⟩

/-! ## Claim C2: agreement of the two plain-HTML parsers

The all-uppercase case-sensitive alternatives of part_001's
`estado_competencia` cascade are subsumed by the case-insensitive tests,
so the two cascades are the same function of the row. -/

/-- Holds when `w2` matches case-insensitively whatever `w1` matches
case-sensitively: same length, corresponding characters case variants. -/
def patLE : List Char → List Char → Bool
  | [], [] => true
  | a :: as, b :: bs => ciEq b a && patLE as bs
  | _, _ => false

/-- Lift of `patLE` to the word lists of the status pattern. -/
def wordsLE : List (List Char) → List (List Char) → Bool
  | [], [] => true
  | w :: ws, v :: vs => patLE w v && wordsLE ws vs
  | _, _ => false

/-! ## Claim C3: the item-identifier extractors

```ts
// src/src/extract.ts
function pickItemId(hrefs: (string | null | undefined)[]) {
  for (const href of hrefs) {
    if (!href) continue;
    const m = href.match(/(?:\?|&)itemId=(MLU\d{6,})\b/i);
    if (m) return m[1];
  }
  return "";
}
// src/unnamed/part_001 line 33 (double-escaped regex literal!)
function pickItemIdFromHref(href?: string | null) {
  if (!href) return "";
  const m = href.match(/(?:\\?|&)itemId=(MLU\\d{6,})\\b/i);
  return m ? m[1] : "";
}
// src/unnamed/part_001 line 159
function pickItemIdFromHref(href?: string | null) {
  if (!href) return "";
  const m = href.match(/(?:\?|&)itemId=(MLU\d{6,})\b/i);
  return m ? m[1] : "";
}
```
-/

/-- Embeds `pickItemId` of src/src/extract.ts: first matching href wins; falsy
entries (null, undefined, the empty string) are skipped. -/
def pickItemId : List (Option String) → String
  | [] => ""
  | none :: rest => pickItemId rest
  | some h :: rest =>
    if h = "" then pickItemId rest
    else
      match itemIdScan true h.data with
      | some cap => String.mk cap
      | none => pickItemId rest

/-- The second `pickItemIdFromHref` of src/unnamed/part_001 (line 159):
the correct single-href extractor. -/
def pickItemIdFromHrefB (href : Option String) : String :=
  match href with
  | none => ""
  | some h =>
    if h = "" then ""
    else
      match itemIdScan true h.data with
      | some cap => String.mk cap
      | none => ""

/-- The backslash character. -/
def bkS : Char := Char.ofNat 92

/-- Tail of the double-escaped regex of part_001 line 35 after its
prefix alternation: `itemId=` (ci), then the capture
`(MLU\\d{6,})` — the text `MLU`, a literal backslash, and six or more
`d`/`D` characters — then the literal text `\b`. -/
def weirdAfterSep (l : List Char) : Option (List Char) :=
  (stripLitE ciEq "itemId=".data none l).bind fun pr =>
  (stripKeepCI "MLU".data pr.2).bind fun mr =>
  match mr.2 with
  | c :: r3 =>
    if c = bkS then
      let ds := r3.takeWhile fun d => ciEq 'd' d
      let rest := r3.dropWhile fun d => ciEq 'd' d
      if 6 ≤ ds.length then
        match rest with
        | e :: r5 =>
          if e = bkS then
            match r5 with
            | f :: _ => if ciEq 'b' f then some (mr.1 ++ c :: ds) else none
            | [] => none
          else none
        | [] => none
      else none
    else none
  | [] => none

/-- The double-escaped pattern `(?:\\?|&)itemId=(MLU\\d{6,})\\b` (flag
`i`) at one position: the alternation is an optional literal backslash
(tried with the backslash first, then empty) or `&`. -/
def weirdItemIdAt : Option Char → List Char → Option (List Char) :=
  fun _ l =>
    match
      (match l with
        | c :: cs => if c = bkS then weirdAfterSep cs else none
        | [] => none)
    with
    | some cap => some cap
    | none =>
      match weirdAfterSep l with
      | some cap => some cap
      | none =>
        match l with
        | c :: cs => if c = '&' then weirdAfterSep cs else none
        | [] => none

/-- The first `pickItemIdFromHref` of src/unnamed/part_001 (line 33),
whose regex literal is double-escaped. -/
def pickItemIdFromHrefA (href : Option String) : String :=
  match href with
  | none => ""
  | some h =>
    if h = "" then ""
    else
      match scan weirdItemIdAt h.data with
      | some cap => String.mk cap
      | none => ""

/-- Matcher for a plain case-insensitive literal at one position. -/
def containsAt (pat : List Char) : Option Char → List Char → Option Unit :=
  fun p r => (stripLitE ciEq pat p r).map fun _ => ()

/-- The text `pat` occurs (case-insensitively) in the input. -/
def containsCI (pat : List Char) (l : List Char) : Bool :=
  rtest (containsAt pat) l

/-! ## Claim C6: `recordsToCsv` (src/unnamed/part_001 lines 522-539) -/

/-- Embeds `RowWithTs` of part_001 line 543: a parsed record plus timestamp. -/
structure RowWithTs where
  sku : String
  itemId : String
  estado_competencia : String
  estado_operativo : String
  titulo : String
  url_item : String
  timestamp : String
deriving Repr, DecidableEq

/-- The marketplace base URL (part_001 line 396). -/
def BASE : String := "https://www.mercadolibre.com.uy"

/-- Characters `encodeURIComponent` leaves unescaped:
`A-Z a-z 0-9 - _ . ! ~ * ' ( )`. -/
def isUnreservedURI (c : Char) : Bool :=
  let n := c.toNat
  (65 ≤ n && n ≤ 90) || (97 ≤ n && n ≤ 122) || (48 ≤ n && n ≤ 57) ||
    n == 45 || n == 95 || n == 46 || n == 33 || n == 126 || n == 42 ||
    n == 39 || n == 40 || n == 41

/-- UTF-8 encoding of a code point (byte values). -/
def utf8Bytes (c : Char) : List Nat :=
  let n := c.toNat
  if n < 0x80 then [n]
  else if n < 0x800 then [0xC0 + n / 64, 0x80 + n % 64]
  else if n < 0x10000 then
    [0xE0 + n / 4096, 0x80 + n / 64 % 64, 0x80 + n % 64]
  else
    [0xF0 + n / 0x40000, 0x80 + n / 4096 % 64, 0x80 + n / 64 % 64,
      0x80 + n % 64]

/-- Uppercase hexadecimal digit. -/
def hexDigit (n : Nat) : Char :=
  Char.ofNat (if n < 10 then 48 + n else 55 + n)

/-- Percent-escape of one byte. -/
def pctByte (b : Nat) : List Char := ['%', hexDigit (b / 16), hexDigit (b % 16)]

/-- JS `encodeURIComponent`. -/
def encodeURIComponent (s : String) : String :=
  String.mk (s.data.foldr
    (fun c acc =>
      (if isUnreservedURI c then [c]
       else (utf8Bytes c).foldr (fun b a => pctByte b ++ a) []) ++ acc)
    [])

/-- Embeds `itemUrl` of part_001 line 478: the modify-listing URL, or `""` for a
falsy item id. -/
def itemUrl (itemId : String) : String :=
  if itemId = "" then ""
  else BASE ++ "/syi/core/modify?itemId=" ++ encodeURIComponent itemId

/-- Embeds `replace(/"/g, '""')`: double every double quote. -/
def escQuotes : List Char → List Char
  | [] => []
  | c :: cs =>
    if c = '"' then '"' :: '"' :: escQuotes cs else c :: escQuotes cs

/-- Embeds `esc` of `recordsToCsv`: wrap in double quotes, doubling inner ones
(`(s || "")` is the identity on strings). -/
def esc (s : String) : String := "\"" ++ String.mk (escQuotes s.data) ++ "\""

/-- JS `Array.prototype.join(",")`. -/
def joinComma : List String → String
  | [] => ""
  | [x] => x
  | x :: y :: t => x ++ "," ++ joinComma (y :: t)

/-- JS `Array.prototype.join("\n")`. -/
def joinNl : List String → String
  | [] => ""
  | [x] => x
  | x :: y :: t => x ++ "\n" ++ joinNl (y :: t)

/-- Embeds `csvHeader()` (part_001 line 522). -/
def csvHeader : String :=
  "SKU,ITEM_ID,ESTADO_COMPETENCIA,ESTADO_OPERATIVO,TITULO,URL,TIMESTAMP\n"

/-- One CSV line of `recordsToCsv` (the `rows.map` body). -/
def csvRowLine (r : RowWithTs) : String :=
  joinComma [r.sku, r.itemId, r.estado_competencia, r.estado_operativo,
    esc r.titulo, itemUrl r.itemId, r.timestamp]

/-- Embeds `recordsToCsv` of part_001 lines 525-539. -/
def recordsToCsv (rows : List RowWithTs) : String :=
  csvHeader ++ joinNl (rows.map csvRowLine) ++ "\n"

/-- The CSV line as the claim words it: the record's fields joined with
commas, the title quoted with inner double quotes doubled, the URL
derived from the item id, and the timestamp. -/
def claimCsvLine (r : RowWithTs) : String :=
  r.sku ++ "," ++ r.itemId ++ "," ++ r.estado_competencia ++ "," ++
    r.estado_operativo ++ "," ++
    ("\"" ++ String.mk (escQuotes r.titulo.data) ++ "\"") ++ "," ++
    itemUrl r.itemId ++ "," ++ r.timestamp

/-! ## Claim C7: `summarize` (src/src/report.ts lines 38-61)

`Row`'s status fields are unions of four string literals in TS; they are
embedded as four-constructor inductives, so that `groups`, a `Record`
keyed by the four values, is total. -/

/-- The four competitive statuses of `Row["estado_competencia"]`. -/
inductive Competencia
  | ganando
  | compartiendo
  | perdiendo
  | sinEstado
deriving Repr, DecidableEq

/-- The four operational statuses of `Row["estado_operativo"]`. -/
inductive Operativo
  | activa
  | pausada
  | inactiva
  | unknown
deriving Repr, DecidableEq

/-- Embeds `Row` of src/src/report.ts. -/
structure Row where
  sku : String
  itemId : String
  estado_competencia : Competencia
  estado_operativo : Operativo
  titulo : String
deriving Repr, DecidableEq

/-- Embeds `Groups`: the `Record` with one list per competitive status. -/
structure Groups where
  ganando : List Row
  compartiendo : List Row
  perdiendo : List Row
  sinEstado : List Row
deriving Repr, DecidableEq

/-- Indexing `groups[st]`. -/
def groupsGet (g : Groups) : Competencia → List Row
  | .ganando => g.ganando
  | .compartiendo => g.compartiendo
  | .perdiendo => g.perdiendo
  | .sinEstado => g.sinEstado

/-- Embeds `groups[r.estado_competencia].push(r)`. -/
def pushGroup (g : Groups) (r : Row) : Groups :=
  match r.estado_competencia with
  | .ganando => ⟨g.ganando ++ [r], g.compartiendo, g.perdiendo, g.sinEstado⟩
  | .compartiendo => ⟨g.ganando, g.compartiendo ++ [r], g.perdiendo, g.sinEstado⟩
  | .perdiendo => ⟨g.ganando, g.compartiendo, g.perdiendo ++ [r], g.sinEstado⟩
  | .sinEstado => ⟨g.ganando, g.compartiendo, g.perdiendo, g.sinEstado ++ [r]⟩

/-- The `for (const r of rows) groups[r.estado_competencia].push(r)` loop
starting from four empty lists. -/
def groupsOf (rows : List Row) : Groups :=
  rows.foldl pushGroup ⟨[], [], [], []⟩

/-- Embeds `compCounts`: the per-status group sizes. -/
def compCounts (rows : List Row) (c : Competencia) : Nat :=
  (groupsGet (groupsOf rows) c).length

/-- The operational-status counter record (the `reduce` accumulator). -/
structure OpCounts where
  activa : Nat
  pausada : Nat
  inactiva : Nat
  unknown : Nat
deriving Repr, DecidableEq

/-- Embeds `acc[r.estado_operativo] = (acc[r.estado_operativo] ?? 0) + 1`. -/
def bumpOp (a : OpCounts) (r : Row) : OpCounts :=
  match r.estado_operativo with
  | .activa => ⟨a.activa + 1, a.pausada, a.inactiva, a.unknown⟩
  | .pausada => ⟨a.activa, a.pausada + 1, a.inactiva, a.unknown⟩
  | .inactiva => ⟨a.activa, a.pausada, a.inactiva + 1, a.unknown⟩
  | .unknown => ⟨a.activa, a.pausada, a.inactiva, a.unknown + 1⟩

/-- Indexing the operational counters. -/
def opGet (a : OpCounts) : Operativo → Nat
  | .activa => a.activa
  | .pausada => a.pausada
  | .inactiva => a.inactiva
  | .unknown => a.unknown

/-- Embeds `opCounts`: the `rows.reduce` over `bumpOp` from all-zero counters. -/
def opCountsOf (rows : List Row) : OpCounts :=
  rows.foldl bumpOp ⟨0, 0, 0, 0⟩

/-- Embeds `total` of `summarize`. -/
def summarizeTotal (rows : List Row) : Nat := rows.length

/-! ## Claim C8: `readSkusCsv` (src/unnamed/part_001 lines 498-515)

The filesystem read is orchestration; the embedded function takes the
file content. -/

/-- Split on `\n` (first step of splitting on `/\r?\n/`). -/
def splitNl : List Char → List (List Char)
  | [] => [[]]
  | c :: cs =>
    if c = '\n' then [] :: splitNl cs
    else
      match splitNl cs with
      | [] => [[c]]
      | a :: rest => (c :: a) :: rest

/-- Drop one trailing `\r` (the optional `\r` of the separator). -/
def dropTrailCr (l : List Char) : List Char :=
  match l.reverse with
  | c :: rest => if c = '\r' then rest.reverse else l
  | [] => l

/-- Embeds `raw.split(/\r?\n/)`. -/
def splitLinesJs (s : String) : List String :=
  (splitNl s.data).map fun l => String.mk (dropTrailCr l)

/-- JS `String.trim`. -/
def jsTrim (s : String) : String :=
  String.mk (trimRightWs (trimLeftWs s.data))

/-- Embeds `/^[A-Za-z]/.test(line)`. -/
def startsLetter (s : String) : Bool :=
  match s.data with
  | c :: _ =>
    (65 ≤ c.toNat && c.toNat ≤ 90) || (97 ≤ c.toNat && c.toNat ≤ 122)
  | [] => false

/-- Embeds `(line.split(/,|\t/)[0] || "")`: the text before the first comma or
tab. -/
def firstField (s : String) : String :=
  String.mk (s.data.takeWhile fun c => !(c = ',' || c = '\t'))

/-- Embeds `t.replace(/[^\d]/g, "")`: keep only the decimal digits. -/
def digitsOnly (s : String) : String := String.mk (s.data.filter isDigitA)

/-- The split, trimmed, blank-filtered lines (lines 502-505). -/
def cleanLines (raw : String) : List String :=
  ((splitLinesJs raw).map jsTrim).filter fun l => l != ""

/-- Embeds `readSkusCsv` (on the file content): skip a letter-initial header
line, take each line's first field, keep only digits, and keep the
results matching `/^\d+$/`. -/
def readSkusCsv (raw : String) : List String :=
  let lines := cleanLines raw
  let startIdx := if startsLetter (lines.headD "") then 1 else 0
  (((lines.drop startIdx).map fun line => jsTrim (firstField line)).map
      digitsOnly).filter
    fun t => t != "" && t.data.all isDigitA

/-! ## Claim C9: `tableFor` ordering (src/src/report.ts lines 63-71 and
src/unnamed/part_001 lines 571-578)

`titulo.localeCompare(other, "es")` is an ICU collation; it is modelled
by an arbitrary comparison function `cmp : String → String → Int`
assumed, as every collator is, to be total and transitive.  JS
`Array.prototype.sort` on a copy (`[...rows].sort`) is modelled by
`List.mergeSort` (a stable sort, like the engine's). -/

/-- Embeds `opRank` of `tableFor` (report.ts line 66). -/
def opRank : Operativo → Nat
  | .activa => 0
  | .pausada => 1
  | .inactiva => 2
  | .unknown => 3

/-- The comparator of report.ts lines 65-71 as a boolean "comes no later
than" relation: rank difference decides, titles (locale comparison)
break ties (`a.titulo || ""` is the identity on strings). -/
def rowLe (cmp : String → String → Int) (a b : Row) : Bool :=
  if opRank a.estado_operativo ≠ opRank b.estado_operativo then
    decide (opRank a.estado_operativo < opRank b.estado_operativo)
  else decide (cmp a.titulo b.titulo ≤ 0)

/-- The ordered row list of report.ts `tableFor` (`[...rows].sort(...)`). -/
def tableForOrdered (cmp : String → String → Int) (rows : List Row) :
    List Row :=
  rows.mergeSort (rowLe cmp)

/-- Embeds `opRank` of part_001 line 573 (string-typed statuses). -/
def opRank001 (s : String) : Nat :=
  if s = "Activa" then 0
  else if s = "Pausada" then 1
  else if s = "Inactiva" then 2
  else 3

/-- The comparator of part_001 lines 572-578. -/
def rowLe001 (cmp : String → String → Int) (a b : RowWithTs) : Bool :=
  if opRank001 a.estado_operativo ≠ opRank001 b.estado_operativo then
    decide (opRank001 a.estado_operativo < opRank001 b.estado_operativo)
  else decide (cmp a.titulo b.titulo ≤ 0)

/-- The ordered row list of part_001 `tableFor`. -/
def tableForOrdered001 (cmp : String → String → Int)
    (rows : List RowWithTs) : List RowWithTs :=
  rows.mergeSort (rowLe001 cmp)

theorem ciEq_refl (c : Char) : ciEq c c = true := by
  simp [ciEq]

theorem csEq_ciEq {a b : Char} (h : csEq a b = true) : ciEq a b = true := by
  simp only [csEq, beq_iff_eq] at h
  subst h
  exact ciEq_refl a

theorem noDoubleWs_tail {c : Char} {l : List Char}
    (h : noDoubleWs (c :: l) = true) : noDoubleWs l = true := by
  cases l with
  | nil => rfl
  | cons d t => simp only [noDoubleWs, Bool.and_eq_true] at h; exact h.2

theorem headNotWs_collapseWs_true (l : List Char) :
    headNotWs (collapseWs true l) = true := by
  induction l with
  | nil => rfl
  | cons c cs ih =>
    by_cases h : isJsWs c = true
    · simpa [collapseWs, h] using ih
    · simp [collapseWs, h, headNotWs]

theorem noDoubleWs_collapseWs (b : Bool) (l : List Char) :
    noDoubleWs (collapseWs b l) = true := by
  induction l generalizing b with
  | nil => rfl
  | cons c cs ih =>
    by_cases h : isJsWs c = true
    · cases b with
      | true => simpa [collapseWs, h] using ih true
      | false =>
        simp only [collapseWs, h, if_true]
        have hhd := headNotWs_collapseWs_true cs
        cases hrec : collapseWs true cs with
        | nil => rfl
        | cons d t =>
          rw [hrec] at hhd
          simp only [headNotWs, List.head?] at hhd
          have := ih true
          rw [hrec] at this
          simp [noDoubleWs, hhd, this]
    · simp only [collapseWs, h, if_false, Bool.false_eq_true]
      have := ih false
      cases hrec : collapseWs false cs with
      | nil => rfl
      | cons d t =>
        rw [hrec] at this
        simp [noDoubleWs, h, this]

theorem wsAreSpaces_cons {c : Char} {l : List Char} :
    wsAreSpaces (c :: l) = ((!isJsWs c || c == ' ') && wsAreSpaces l) := by
  simp [wsAreSpaces, List.all_cons]

theorem wsAreSpaces_collapseWs (b : Bool) (l : List Char) :
    wsAreSpaces (collapseWs b l) = true := by
  induction l generalizing b with
  | nil => rfl
  | cons c cs ih =>
    cases h : isJsWs c with
    | true =>
      cases b with
      | true => simpa [collapseWs, h] using ih true
      | false =>
        simp only [collapseWs, h, if_true, Bool.false_eq_true, if_false]
        rw [wsAreSpaces_cons, ih true]
        simp
    | false =>
      simp only [collapseWs, h, Bool.false_eq_true, if_false]
      rw [wsAreSpaces_cons, ih false]
      simp [h]

theorem collapseWs_true_of_headNot {l : List Char} (h : headNotWs l = true) :
    collapseWs true l = collapseWs false l := by
  cases l with
  | nil => rfl
  | cons c cs =>
    simp only [headNotWs, List.head?, Bool.not_eq_true'] at h
    simp [collapseWs, h]

theorem collapseWs_id {l : List Char} (h1 : noDoubleWs l = true)
    (h2 : wsAreSpaces l = true) : collapseWs false l = l := by
  induction l with
  | nil => rfl
  | cons c cs ih =>
    have h1t : noDoubleWs cs = true := noDoubleWs_tail h1
    have h2t : wsAreSpaces cs = true := by
      rw [wsAreSpaces_cons, Bool.and_eq_true] at h2; exact h2.2
    cases h : isJsWs c with
    | true =>
      have hc : c = ' ' := by
        rw [wsAreSpaces_cons, Bool.and_eq_true] at h2
        have := h2.1
        simp [h] at this
        exact this
      have hhd : headNotWs cs = true := by
        cases cs with
        | nil => rfl
        | cons d t =>
          simp only [noDoubleWs, Bool.and_eq_true, Bool.not_eq_true',
            Bool.and_eq_false_iff] at h1
          rcases h1.1 with hd | hd
          · rw [hd] at h; exact absurd h (by simp)
          · simp [headNotWs, hd]
      simp only [collapseWs, h, if_true, Bool.false_eq_true, if_false]
      rw [collapseWs_true_of_headNot hhd, ih h1t h2t, hc]
    | false =>
      simp only [collapseWs, h, Bool.false_eq_true, if_false]
      rw [ih h1t h2t]

theorem headNotWs_trimLeftWs (l : List Char) :
    headNotWs (trimLeftWs l) = true := by
  induction l with
  | nil => rfl
  | cons c cs ih =>
    by_cases h : isJsWs c = true
    · simpa [trimLeftWs, h] using ih
    · simp [trimLeftWs, h, headNotWs]

theorem trimLeftWs_id {l : List Char} (h : headNotWs l = true) :
    trimLeftWs l = l := by
  cases l with
  | nil => rfl
  | cons c cs =>
    simp only [headNotWs, List.head?, Bool.not_eq_true'] at h
    simp [trimLeftWs, h]

theorem lastNotWs_tail {c : Char} {l : List Char}
    (h : lastNotWs (c :: l) = true) : lastNotWs l = true := by
  cases l with
  | nil => rfl
  | cons d t => simpa [lastNotWs] using h

theorem noDoubleWs_trimLeftWs {l : List Char} (h : noDoubleWs l = true) :
    noDoubleWs (trimLeftWs l) = true := by
  induction l with
  | nil => rfl
  | cons c cs ih =>
    by_cases hc : isJsWs c = true
    · simp only [trimLeftWs, hc, if_true]
      exact ih (noDoubleWs_tail h)
    · simpa [trimLeftWs, hc] using h

theorem wsAreSpaces_trimLeftWs {l : List Char} (h : wsAreSpaces l = true) :
    wsAreSpaces (trimLeftWs l) = true := by
  induction l with
  | nil => rfl
  | cons c cs ih =>
    simp only [wsAreSpaces, List.all_cons, Bool.and_eq_true] at h
    by_cases hc : isJsWs c = true
    · simp only [trimLeftWs, hc, if_true]
      exact ih h.2
    · simp only [trimLeftWs, hc, Bool.false_eq_true, if_false]
      simp [wsAreSpaces, List.all_cons, h.1, h.2]

theorem lastNotWs_trimLeftWs {l : List Char} (h : lastNotWs l = true) :
    lastNotWs (trimLeftWs l) = true := by
  induction l with
  | nil => rfl
  | cons c cs ih =>
    by_cases hc : isJsWs c = true
    · simp only [trimLeftWs, hc, if_true]
      exact ih (lastNotWs_tail h)
    · simpa [trimLeftWs, hc] using h

theorem trimRightWs_head {c : Char} {l r : List Char} {d : Char}
    (h : trimRightWs (c :: l) = d :: r) : c = d := by
  simp only [trimRightWs] at h
  cases hrec : trimRightWs l with
  | nil =>
    rw [hrec] at h
    simp only [trimRightCons] at h
    cases hc : isJsWs c with
    | true => rw [hc] at h; simp at h
    | false =>
      rw [hc] at h
      simp at h
      exact h.1
  | cons e t =>
    rw [hrec] at h
    simp only [trimRightCons, List.cons.injEq] at h
    exact h.1

theorem lastNotWs_trimRightWs (l : List Char) :
    lastNotWs (trimRightWs l) = true := by
  induction l with
  | nil => rfl
  | cons c cs ih =>
    simp only [trimRightWs]
    cases hrec : trimRightWs cs with
    | nil =>
      simp only [trimRightCons]
      cases hc : isJsWs c with
      | true => simp [hc, lastNotWs]
      | false => simp [lastNotWs, hc]
    | cons d t =>
      rw [hrec] at ih
      simpa [trimRightCons, lastNotWs] using ih

theorem headNotWs_trimRightWs {l : List Char} (h : headNotWs l = true) :
    headNotWs (trimRightWs l) = true := by
  cases l with
  | nil => rfl
  | cons c cs =>
    simp only [headNotWs, List.head?, Bool.not_eq_true'] at h
    simp only [trimRightWs]
    cases hrec : trimRightWs cs with
    | nil => simp [trimRightCons, h, headNotWs]
    | cons d t => simp [trimRightCons, headNotWs, h]

theorem noDoubleWs_trimRightWs {l : List Char} (h : noDoubleWs l = true) :
    noDoubleWs (trimRightWs l) = true := by
  induction l with
  | nil => rfl
  | cons c cs ih =>
    simp only [trimRightWs]
    cases hrec : trimRightWs cs with
    | nil =>
      simp only [trimRightCons]
      cases hc : isJsWs c with
      | true => simp [noDoubleWs]
      | false => simp [noDoubleWs]
    | cons d t =>
      have htl := ih (noDoubleWs_tail h)
      rw [hrec] at htl
      simp only [trimRightCons]
      cases cs with
      | nil => simp [trimRightWs] at hrec
      | cons e u =>
        have : e = d := trimRightWs_head hrec
        subst this
        simp only [noDoubleWs, Bool.and_eq_true] at h ⊢
        exact ⟨h.1, htl⟩

theorem wsAreSpaces_trimRightWs {l : List Char} (h : wsAreSpaces l = true) :
    wsAreSpaces (trimRightWs l) = true := by
  induction l with
  | nil => rfl
  | cons c cs ih =>
    rw [wsAreSpaces_cons, Bool.and_eq_true] at h
    simp only [trimRightWs]
    cases hrec : trimRightWs cs with
    | nil =>
      simp only [trimRightCons]
      cases hc : isJsWs c with
      | true => simp [wsAreSpaces]
      | false =>
        simp only [Bool.false_eq_true, if_false]
        rw [wsAreSpaces_cons]
        simp [hc, wsAreSpaces]
    | cons d t =>
      have htl := ih h.2
      rw [hrec] at htl
      simp only [trimRightCons]
      rw [wsAreSpaces_cons, Bool.and_eq_true]
      exact ⟨h.1, htl⟩

theorem trimRightWs_id {l : List Char} (h : lastNotWs l = true) :
    trimRightWs l = l := by
  induction l with
  | nil => rfl
  | cons c cs ih =>
    cases cs with
    | nil =>
      simp only [lastNotWs, Bool.not_eq_true'] at h
      simp [trimRightWs, trimRightCons, h]
    | cons d t =>
      have h2 : trimRightWs (d :: t) = d :: t := ih (lastNotWs_tail h)
      simp only [trimRightWs] at h2 ⊢
      rw [h2]
      rfl

theorem String_data_mk (l : List Char) : (String.mk l).data = l := rfl

/-- C10: the whitespace normalizer `clean` is idempotent: for every string
`s` (and for a `null`/`undefined` argument, mapped to `""`),
`clean (clean s) = clean s`, and the result never begins or ends with a
whitespace character and never contains two consecutive whitespace
characters. -/
theorem claim_C10_clean_idempotent :
    ∀ s : String,
      clean (clean s) = clean s ∧
      headNotWs (clean s).data = true ∧
      lastNotWs (clean s).data = true ∧
      noDoubleWs (clean s).data = true ∧
      cleanOpt none = "" := by
  intro s
  have hnd : noDoubleWs (clean s).data = true :=
    noDoubleWs_trimRightWs (noDoubleWs_trimLeftWs (noDoubleWs_collapseWs false s.data))
  have hws : wsAreSpaces (clean s).data = true :=
    wsAreSpaces_trimRightWs (wsAreSpaces_trimLeftWs (wsAreSpaces_collapseWs false s.data))
  have hh : headNotWs (clean s).data = true :=
    headNotWs_trimRightWs (headNotWs_trimLeftWs (collapseWs false s.data))
  have hl : lastNotWs (clean s).data = true :=
    lastNotWs_trimRightWs (trimLeftWs (collapseWs false s.data))
  refine ⟨?_, hh, hl, hnd, rfl⟩
  show String.mk (trimRightWs (trimLeftWs (collapseWs false (clean s).data))) = clean s
  rw [collapseWs_id hnd hws, trimLeftWs_id hh, trimRightWs_id hl]

/-! ## Range of the status fields -/

theorem estadoCompetencia000_cases (row : List Char) :
    estadoCompetencia000 row = "Ganando" ∨
      estadoCompetencia000 row = "Perdiendo" ∨
      estadoCompetencia000 row = "Compartiendo primer lugar" ∨
      estadoCompetencia000 row = "SIN_ESTADO" := by
  unfold estadoCompetencia000
  split_ifs <;> simp

theorem estadoCompetencia001_cases (row : List Char) :
    estadoCompetencia001 row = "Ganando" ∨
      estadoCompetencia001 row = "Perdiendo" ∨
      estadoCompetencia001 row = "Compartiendo primer lugar" ∨
      estadoCompetencia001 row = "SIN_ESTADO" := by
  unfold estadoCompetencia001
  split_ifs <;> simp

theorem estadoOperativo000_cases (row : List Char) :
    estadoOperativo000 row = "Activa" ∨ estadoOperativo000 row = "Pausada" ∨
      estadoOperativo000 row = "Inactiva" ∨
      estadoOperativo000 row = "UNKNOWN" := by
  simp only [estadoOperativo000]
  split_ifs <;> simp

theorem estadoOperativo001_cases (row : List Char) :
    estadoOperativo001 row = "Activa" ∨ estadoOperativo001 row = "Pausada" ∨
      estadoOperativo001 row = "Inactiva" ∨
      estadoOperativo001 row = "UNKNOWN" := by
  unfold estadoOperativo001
  split_ifs <;> simp

/-- Inversion of `parseHtmlForSku000`: a returned record is built from
the found row slice by the field extractors. -/
theorem parse000_some_inv {html sku : String} {r : ParsedRecord}
    (h : parseHtmlForSku000 html sku = some r) :
    ∃ row, sliceRowForSku html sku = some row ∧
      r.sku = skuReval row sku ∧
      r.estado_competencia = estadoCompetencia000 row ∧
      r.estado_operativo = estadoOperativo000 row ∧
      r.titulo = titulo000 row := by
  unfold parseHtmlForSku000 at h
  cases hs : sliceRowForSku html sku with
  | none => rw [hs] at h; exact absurd h (by simp)
  | some row =>
    rw [hs] at h
    simp only at h
    split at h
    · refine ⟨row, rfl, ?_, ?_, ?_, ?_⟩ <;>
        simp only [Option.some.injEq] at h <;> rw [← h]
    · exact absurd h (by simp)

/-! ## Claim C1 -/

/-- C1 as stated is false: on this HTML, `parseHtmlForSku` of
src/unnamed/part_000 returns a record (the row and title are found) whose
`estado_competencia` is `"SIN_ESTADO"` — not one of the three listed
competitive statuses — and whose `estado_operativo` is `"UNKNOWN"` — not
one of the three listed operational statuses. -/
theorem claim_C1_counterexample :
    (parseHtmlForSku000
        "<div class=\"sc-list-item-row sc-list-item-row--catalog\"><span>SKU 123</span><a class=\"sc-list-item-row-description__title\">Foo</a></div></div></div>"
        "123").map (fun r => r.estado_competencia) = some "SIN_ESTADO" ∧
    (parseHtmlForSku000
        "<div class=\"sc-list-item-row sc-list-item-row--catalog\"><span>SKU 123</span><a class=\"sc-list-item-row-description__title\">Foo</a></div></div></div>"
        "123").map (fun r => r.estado_operativo) = some "UNKNOWN" ∧
    ("SIN_ESTADO" ≠ "Ganando" ∧ "SIN_ESTADO" ≠ "Perdiendo" ∧
      "SIN_ESTADO" ≠ "Compartiendo primer lugar") ∧
    ("UNKNOWN" ≠ "Activa" ∧ "UNKNOWN" ≠ "Pausada" ∧
      "UNKNOWN" ≠ "Inactiva") := by
  refine ⟨by decide, by decide, by decide, by decide⟩

/-- C1 amended: every record returned by either `parseHtmlForSku` has
`estado_competencia` among the three competitive statuses *or*
`"SIN_ESTADO"`, and `estado_operativo` among the three operational
statuses *or* `"UNKNOWN"`. -/
theorem claim_C1_amended :
    (∀ (html sku : String) (r : ParsedRecord),
      parseHtmlForSku000 html sku = some r →
        (r.estado_competencia = "Ganando" ∨ r.estado_competencia = "Perdiendo" ∨
          r.estado_competencia = "Compartiendo primer lugar" ∨
          r.estado_competencia = "SIN_ESTADO") ∧
        (r.estado_operativo = "Activa" ∨ r.estado_operativo = "Pausada" ∨
          r.estado_operativo = "Inactiva" ∨ r.estado_operativo = "UNKNOWN")) ∧
    ∀ (html sku : String),
      ((parseHtmlForSku001 html sku).estado_competencia = "Ganando" ∨
        (parseHtmlForSku001 html sku).estado_competencia = "Perdiendo" ∨
        (parseHtmlForSku001 html sku).estado_competencia =
          "Compartiendo primer lugar" ∨
        (parseHtmlForSku001 html sku).estado_competencia = "SIN_ESTADO") ∧
      ((parseHtmlForSku001 html sku).estado_operativo = "Activa" ∨
        (parseHtmlForSku001 html sku).estado_operativo = "Pausada" ∨
        (parseHtmlForSku001 html sku).estado_operativo = "Inactiva" ∨
        (parseHtmlForSku001 html sku).estado_operativo = "UNKNOWN") := by
  constructor
  · intro html sku r h
    obtain ⟨row, _, _, hc, ho, _⟩ := parse000_some_inv h
    constructor
    · rw [hc]; exact estadoCompetencia000_cases row
    · rw [ho]; exact estadoOperativo000_cases row
  · intro html sku
    constructor
    · exact estadoCompetencia001_cases _
    · exact estadoOperativo001_cases _

/-- Witness for C1 (amended): the theorem applied to a concrete page on
which part_000's parser returns a record. -/
theorem claim_C1_witness :
    (("SIN_ESTADO" : String) = "Ganando" ∨ ("SIN_ESTADO" : String) = "Perdiendo" ∨
      ("SIN_ESTADO" : String) = "Compartiendo primer lugar" ∨
      ("SIN_ESTADO" : String) = "SIN_ESTADO") ∧
    (("UNKNOWN" : String) = "Activa" ∨ ("UNKNOWN" : String) = "Pausada" ∨
      ("UNKNOWN" : String) = "Inactiva" ∨ ("UNKNOWN" : String) = "UNKNOWN") :=
  claim_C1_amended.1
    "<div class=\"sc-list-item-row sc-list-item-row--catalog\"><span>SKU 77</span><a class=\"sc-list-item-row-description__title\">Bar</a></div></div></div>"
    "77" ⟨"77", "", "SIN_ESTADO", "UNKNOWN", "Bar"⟩ (by decide)

/-! ## Claim C4 -/

/-- The literal-text model is the generic parser at the literal reading of
the needle. -/
theorem parseHtmlForSku000_eq_gen (html sku : String) :
    parseHtmlForSku000 html sku =
      parseHtmlForSku000Gen (needleTest sku) html sku := rfl

/-- C4 as stated is false for the program, because the SKU is spliced into
the needle's pattern text.  At SKU `"1*"` the compiled needle is
`\bSKU\s*1*\b` (embedded by `needleTest1Star`), whose `1*` quantifier
matches the empty run, so it matches the row of `pageSkuFive`, which
contains `SKU 5`; the parser therefore returns a record although no row
slice of the page contains the word-bounded, case-insensitive text
`SKU 1*` (first conjunct: the literal-text needle finds no row; second
conjunct: the literal-text model would return `null` accordingly; third:
the program, with the spliced needle, returns a record). -/
theorem claim_C4_counterexample :
    sliceRowForSku pageSkuFive "1*" = none ∧
    parseHtmlForSku000 pageSkuFive "1*" = none ∧
    parseHtmlForSku000Gen needleTest1Star pageSkuFive "1*" =
      some ⟨"5", "", "SIN_ESTADO", "UNKNOWN", "Foo"⟩ :=
  ⟨by decide, by decide, by decide⟩

/-- C4 amended, restricted to SKUs made of decimal digits (the only SKUs
the pipeline produces, cf. `readSkusCsv`): for such a SKU the spliced
pattern reads the SKU literally, and if no row slice of the HTML contains
the word-bounded, case-insensitive needle `SKU <sku>`, then
`parseHtmlForSku` of src/unnamed/part_000 returns `null`; in particular
it does so on the empty HTML string. -/
theorem claim_C4_amended :
    (∀ (html sku : String), (∀ c ∈ sku.data, isDigitA c = true) →
      (∀ r ∈ rowsOf html, needleTest sku r = false) →
        parseHtmlForSku000 html sku = none) ∧
    ∀ sku : String, (∀ c ∈ sku.data, isDigitA c = true) →
      parseHtmlForSku000 "" sku = none := by
  constructor
  · intro html sku _ h
    have hfind : (rowsOf html).find? (needleTest sku) = none := by
      rw [List.find?_eq_none]
      intro x hx
      simp [h x hx]
    unfold parseHtmlForSku000 sliceRowForSku
    rw [hfind]
  · intro sku _
    unfold parseHtmlForSku000 sliceRowForSku
    have : rowsOf "" = [] := rfl
    rw [this]
    rfl

/-- Witness for C4 (amended): the all-digit SKU `42` on a page with no
row slice at all. -/
theorem claim_C4_witness :
    parseHtmlForSku000 "<html><body>nothing here</body></html>" "42" = none :=
  claim_C4_amended.1 "<html><body>nothing here</body></html>" "42"
    (by decide) (by decide)

/-! ## Claim C5 -/

/-- C5: the `estado_operativo` heuristics of src/unnamed/part_000 form a
linear fallback chain.  An explicit status label wins regardless of the
row modifier classes and switch attributes (within the label tier, in the
order Activa, Pausada, Inactiva); the row classes are consulted only when
no label matched; the switch `checked`/`aria-checked` state only when
neither a label nor a class matched; and the result is `"UNKNOWN"`
exactly when all three tiers fail. -/
theorem claim_C5_operativo_chain :
    ∀ row : List Char,
      (labelTest "Activa" row = true → estadoOperativo000 row = "Activa") ∧
      (labelTest "Activa" row = false → labelTest "Pausada" row = true →
        estadoOperativo000 row = "Pausada") ∧
      (labelTest "Activa" row = false → labelTest "Pausada" row = false →
        labelTest "Inactiva" row = true →
        estadoOperativo000 row = "Inactiva") ∧
      (labelTest "Activa" row = false → labelTest "Pausada" row = false →
        labelTest "Inactiva" row = false →
        rowClassTest "--active" row = true →
        estadoOperativo000 row = "Activa") ∧
      (labelTest "Activa" row = false → labelTest "Pausada" row = false →
        labelTest "Inactiva" row = false →
        rowClassTest "--active" row = false →
        rowClassTest "--paused" row = true →
        estadoOperativo000 row = "Pausada") ∧
      (labelTest "Activa" row = false → labelTest "Pausada" row = false →
        labelTest "Inactiva" row = false →
        rowClassTest "--active" row = false →
        rowClassTest "--paused" row = false →
        rowClassTest "--inactive" row = true →
        estadoOperativo000 row = "Inactiva") ∧
      (labelTest "Activa" row = false → labelTest "Pausada" row = false →
        labelTest "Inactiva" row = false →
        rowClassTest "--active" row = false →
        rowClassTest "--paused" row = false →
        rowClassTest "--inactive" row = false →
        switchBlockOf row ≠ [] → swChecked (switchBlockOf row) = true →
        estadoOperativo000 row = "Activa") ∧
      (labelTest "Activa" row = false → labelTest "Pausada" row = false →
        labelTest "Inactiva" row = false →
        rowClassTest "--active" row = false →
        rowClassTest "--paused" row = false →
        rowClassTest "--inactive" row = false →
        switchBlockOf row ≠ [] → swChecked (switchBlockOf row) = false →
        swAriaTrue (switchBlockOf row) = true →
        estadoOperativo000 row = "Activa") ∧
      (labelTest "Activa" row = false → labelTest "Pausada" row = false →
        labelTest "Inactiva" row = false →
        rowClassTest "--active" row = false →
        rowClassTest "--paused" row = false →
        rowClassTest "--inactive" row = false →
        switchBlockOf row ≠ [] → swChecked (switchBlockOf row) = false →
        swAriaTrue (switchBlockOf row) = false →
        swAriaFalse (switchBlockOf row) = true →
        estadoOperativo000 row = "Pausada") ∧
      (estadoOperativo000 row = "UNKNOWN" ↔
        labelTest "Activa" row = false ∧ labelTest "Pausada" row = false ∧
        labelTest "Inactiva" row = false ∧
        rowClassTest "--active" row = false ∧
        rowClassTest "--paused" row = false ∧
        rowClassTest "--inactive" row = false ∧
        (switchBlockOf row = [] ∨
          (swChecked (switchBlockOf row) = false ∧
            swAriaTrue (switchBlockOf row) = false ∧
            swAriaFalse (switchBlockOf row) = false))) := by
  intro row
  refine ⟨?_, ?_, ?_, ?_, ?_, ?_, ?_, ?_, ?_, ?_⟩
  · intro h1; simp [estadoOperativo000, h1]
  · intro h1 h2; simp [estadoOperativo000, h1, h2]
  · intro h1 h2 h3; simp [estadoOperativo000, h1, h2, h3]
  · intro h1 h2 h3 h4; simp [estadoOperativo000, h1, h2, h3, h4]
  · intro h1 h2 h3 h4 h5; simp [estadoOperativo000, h1, h2, h3, h4, h5]
  · intro h1 h2 h3 h4 h5 h6
    simp [estadoOperativo000, h1, h2, h3, h4, h5, h6]
  · intro h1 h2 h3 h4 h5 h6 h7 h8
    simp [estadoOperativo000, h1, h2, h3, h4, h5, h6, h7, h8,
      List.isEmpty_iff]
  · intro h1 h2 h3 h4 h5 h6 h7 h8 h9
    simp [estadoOperativo000, h1, h2, h3, h4, h5, h6, h7, h8, h9,
      List.isEmpty_iff]
  · intro h1 h2 h3 h4 h5 h6 h7 h8 h9 h10
    simp [estadoOperativo000, h1, h2, h3, h4, h5, h6, h7, h8, h9, h10,
      List.isEmpty_iff]
  · constructor
    · intro h
      revert h
      simp only [estadoOperativo000]
      split_ifs with h1 h2 h3 h4 h5 h6 h7 h8 h9 h10
      · exact fun h => absurd h (by decide)
      · exact fun h => absurd h (by decide)
      · exact fun h => absurd h (by decide)
      · exact fun h => absurd h (by decide)
      · exact fun h => absurd h (by decide)
      · exact fun h => absurd h (by decide)
      · intro _
        simp only [Bool.not_eq_true] at h1 h2 h3 h4 h5 h6
        simp only [List.isEmpty_iff] at h7
        exact ⟨h1, h2, h3, h4, h5, h6, Or.inl h7⟩
      · exact fun h => absurd h (by decide)
      · exact fun h => absurd h (by decide)
      · exact fun h => absurd h (by decide)
      · intro _
        simp only [Bool.not_eq_true] at h1 h2 h3 h4 h5 h6 h8 h9 h10
        exact ⟨h1, h2, h3, h4, h5, h6, Or.inr ⟨h8, h9, h10⟩⟩
    · rintro ⟨h1, h2, h3, h4, h5, h6, hd⟩
      rcases hd with hd | ⟨hc, ht, hf⟩
      · simp [estadoOperativo000, h1, h2, h3, h4, h5, h6, hd,
          List.isEmpty_iff]
      · simp [estadoOperativo000, h1, h2, h3, h4, h5, h6, hc, ht, hf,
          List.isEmpty_iff]

/-- Witness for C5: a row fragment with an explicit `Pausada` label and a
contradicting `--active` modifier class still yields `"Pausada"`. -/
theorem claim_C5_witness :
    estadoOperativo000
      "<div class=\"sc-list-item-row--active\"><span class=\"sc-list-item-status-switch__label\">Pausada</span></div>".data
      = "Pausada" :=
  ((claim_C5_operativo_chain
      "<div class=\"sc-list-item-row--active\"><span class=\"sc-list-item-status-switch__label\">Pausada</span></div>".data).2.1)
    (by decide) (by decide)

theorem stripLitE_cs_ci :
    ∀ {w1 w2 : List Char}, patLE w1 w2 = true →
      ∀ {prev : Option Char} {l : List Char} {res},
        stripLitE csEq w1 prev l = some res →
        stripLitE ciEq w2 prev l = some res := by
  intro w1
  induction w1 with
  | nil =>
    intro w2 hp prev l res h
    cases w2 with
    | nil => exact h
    | cons b bs => simp [patLE] at hp
  | cons a as ih =>
    intro w2 hp prev l res h
    cases w2 with
    | nil => simp [patLE] at hp
    | cons b bs =>
      simp only [patLE, Bool.and_eq_true] at hp
      cases l with
      | nil => simp [stripLitE] at h
      | cons c cs =>
        simp only [stripLitE] at h ⊢
        by_cases hc : csEq a c = true
        · rw [if_pos hc] at h
          have hca : c = a := by
            have := hc
            simp only [csEq, beq_iff_eq] at this
            exact this.symm
          have hbc : ciEq b c = true := by rw [hca]; exact hp.1
          rw [if_pos hbc]
          exact ih hp.2 h
        · rw [if_neg hc] at h
          cases h

theorem matchWordsE_cs_ci :
    ∀ {ws1 ws2 : List (List Char)}, wordsLE ws1 ws2 = true →
      ∀ {l res : List Char},
        matchWordsE csEq ws1 l = some res →
        matchWordsE ciEq ws2 l = some res := by
  intro ws1
  induction ws1 with
  | nil =>
    intro ws2 hw l res h
    cases ws2 with
    | nil => exact h
    | cons v vs => simp [wordsLE] at hw
  | cons w rest ih =>
    intro ws2 hw l res h
    cases ws2 with
    | nil => simp [wordsLE] at hw
    | cons v vs =>
      simp only [wordsLE, Bool.and_eq_true] at hw
      cases rest with
      | nil =>
        cases vs with
        | nil =>
          simp only [matchWordsE] at h ⊢
          obtain ⟨pr, hpr, hres⟩ := Option.map_eq_some'.mp h
          rw [stripLitE_cs_ci hw.1 hpr]
          simpa using hres
        | cons v2 vs2 => simp [wordsLE] at hw
      | cons w2 wr =>
        cases vs with
        | nil => simp [wordsLE] at hw
        | cons v2 vs2 =>
          simp only [matchWordsE] at h ⊢
          cases hs : stripLitE csEq w none l with
          | none => rw [hs] at h; cases h
          | some pr =>
            rw [hs] at h
            rw [stripLitE_cs_ci hw.1 hs]
            obtain ⟨p, r⟩ := pr
            simp only at h ⊢
            cases r with
            | nil => cases h
            | cons c cs =>
              dsimp only at h ⊢
              by_cases hws : isJsWs c = true
              · rw [if_pos hws] at h
                rw [if_pos hws]
                exact ih hw.2 h
              · rw [if_neg hws] at h
                cases h

theorem scanO_unit_mono {m1 m2 : Option Char → List Char → Option Unit}
    (hm : ∀ prev l, m1 prev l = some () → m2 prev l = some ()) :
    ∀ prev l, scanO m1 prev l = some () → scanO m2 prev l = some () := by
  intro prev l
  induction l generalizing prev with
  | nil => intro h; exact hm _ _ h
  | cons c cs ih =>
    intro h
    simp only [scanO] at h ⊢
    cases hx : m1 prev (c :: cs) with
    | some u => cases u; rw [hm _ _ hx]
    | none =>
      rw [hx] at h
      cases hy : m2 prev (c :: cs) with
      | some u => cases u; rfl
      | none => exact ih _ h

theorem compAt_cs_ci {ws1 ws2 : List (List Char)}
    (hw : wordsLE ws1 ws2 = true) :
    ∀ prev l, compAt csEq ws1 prev l = some () →
      compAt ciEq ws2 prev l = some () := by
  intro prev l h
  simp only [compAt] at h ⊢
  cases l with
  | nil => cases h
  | cons c rest =>
    dsimp only at h ⊢
    by_cases hc : c = '>'
    · rw [if_pos hc] at h
      rw [if_pos hc]
      cases hm : matchWordsE csEq ws1 (rest.dropWhile isJsWs) with
      | none => rw [hm] at h; cases h
      | some r =>
        rw [hm] at h
        rw [matchWordsE_cs_ci hw hm]
        exact h
    · rw [if_neg hc] at h
      cases h

theorem option_unit_isSome {o : Option Unit} (h : o.isSome = true) :
    o = some () := by
  cases o with
  | none => cases h
  | some u => cases u; rfl

theorem compTest_cs_ci {ws1 ws2 : List (List Char)}
    (hw : wordsLE ws1 ws2 = true) {l : List Char}
    (h : compTest csEq ws1 l = true) : compTest ciEq ws2 l = true := by
  simp only [compTest, rtest, scan] at h ⊢
  rw [scanO_unit_mono (compAt_cs_ci hw) none l (option_unit_isSome h)]
  rfl

/-- The two `estado_competencia` cascades agree on every row: the
uppercase case-sensitive alternatives of part_001 are subsumed by the
case-insensitive tests, and its merged Compartiendo/COMPITIENDO branch
equals part_000's two chained branches. -/
theorem estadoCompetencia001_eq (row : List Char) :
    estadoCompetencia001 row = estadoCompetencia000 row := by
  have hg : compTest csEq ["GANANDO".data] row = true →
      hayGanando row = true := fun h => compTest_cs_ci (by decide) h
  have hp : compTest csEq ["PERDIENDO".data] row = true →
      hayPerdiendo row = true := fun h => compTest_cs_ci (by decide) h
  have e1 : (hayGanando row || compTest csEq ["GANANDO".data] row) =
      hayGanando row := by
    cases h : compTest csEq ["GANANDO".data] row
    · simp
    · simp [hg h]
  have e2 : (hayPerdiendo row || compTest csEq ["PERDIENDO".data] row) =
      hayPerdiendo row := by
    cases h : compTest csEq ["PERDIENDO".data] row
    · simp
    · simp [hp h]
  unfold estadoCompetencia001 estadoCompetencia000
  rw [e1, e2]
  cases hG : hayGanando row
  · cases hP : hayPerdiendo row
    · cases hC : hayCompartiendo row <;> cases hCI : hayCompitiendoCS row <;>
        simp
    · simp
  · simp

/-- C2 as stated is false: on this page both parsers find the same row,
but part_000's three-tier `estado_operativo` reads the `--active` row
modifier class while part_001's label-only heuristic returns
`"UNKNOWN"`. -/
theorem claim_C2_counterexample :
    parseHtmlForSku000
        "<div class=\"sc-list-item-row sc-list-item-row--catalog sc-list-item-row--active\"><span>SKU 123</span><a class=\"sc-list-item-row-description__title\">Foo</a></div></div></div>"
        "123" = some ⟨"123", "", "SIN_ESTADO", "Activa", "Foo"⟩ ∧
    (parseHtmlForSku001
        "<div class=\"sc-list-item-row sc-list-item-row--catalog sc-list-item-row--active\"><span>SKU 123</span><a class=\"sc-list-item-row-description__title\">Foo</a></div></div></div>"
        "123").estado_operativo = "UNKNOWN" ∧
    ("Activa" : String) ≠ "UNKNOWN" :=
  ⟨by decide, by decide, by decide⟩

/-- C2 amended: whenever `parseHtmlForSku` of src/unnamed/part_000
returns a record, `parseHtmlForSku` of src/unnamed/part_001 on the same
HTML and SKU agrees with it on the fields `sku` and
`estado_competencia` (but not in general on `itemId`, `estado_operativo`
or `titulo`). -/
theorem claim_C2_amended :
    ∀ (html sku : String) (r : ParsedRecord),
      parseHtmlForSku000 html sku = some r →
        (parseHtmlForSku001 html sku).sku = r.sku ∧
        (parseHtmlForSku001 html sku).estado_competencia =
          r.estado_competencia := by
  intro html sku r h
  obtain ⟨row, hs, hsku, hcomp, _, _⟩ := parse000_some_inv h
  constructor
  · rw [hsku]
    simp only [parseHtmlForSku001, hs, Option.getD_some]
  · rw [hcomp]
    simp only [parseHtmlForSku001, hs, Option.getD_some]
    exact estadoCompetencia001_eq row

/-- C3 as stated is false: `"?itemId=MLU123456a"` contains `?itemId=MLU`
followed by six digits, yet `pickItemId` returns the empty string (the
`\b` after the digit run fails on the following letter), and the first
`pickItemIdFromHref` copy returns the empty string even on a clean href
(its double-escaped regex wants literal backslashes). -/
theorem claim_C3_counterexample :
    pickItemId [some "?itemId=MLU123456a"] = "" ∧
    pickItemIdFromHrefA (some "?itemId=MLU123456") = "" ∧
    ("" : String) ≠ "MLU123456" :=
  ⟨by decide, by decide, by decide⟩

theorem stripLitE_ci_pfx :
    ∀ (w : List Char) (prev : Option Char) (rest : List Char),
      ∃ p, stripLitE ciEq w prev (w ++ rest) = some (p, rest) := by
  intro w
  induction w with
  | nil => intro prev rest; exact ⟨prev, rfl⟩
  | cons a as ih =>
    intro prev rest
    obtain ⟨p, hp⟩ := ih (some a) rest
    exact ⟨p, by simp [stripLitE, ciEq_refl, hp]⟩

theorem stripKeepCI_pfx :
    ∀ (w rest : List Char), stripKeepCI w (w ++ rest) = some (w, rest) := by
  intro w
  induction w with
  | nil => intro rest; rfl
  | cons a as ih =>
    intro rest
    simp [stripKeepCI, ciEq_refl, ih rest]

theorem stripKeepCI_len :
    ∀ {w l cap r : List Char}, stripKeepCI w l = some (cap, r) →
      cap.length = w.length := by
  intro w
  induction w with
  | nil =>
    intro l cap r h
    simp only [stripKeepCI, Option.some.injEq, Prod.mk.injEq] at h
    rw [← h.1]
  | cons a as ih =>
    intro l cap r h
    cases l with
    | nil => simp [stripKeepCI] at h
    | cons c cs =>
      simp only [stripKeepCI] at h
      by_cases hc : ciEq a c = true
      · rw [if_pos hc] at h
        cases hk : stripKeepCI as cs with
        | none => rw [hk] at h; cases h
        | some pr =>
          rw [hk] at h
          obtain ⟨cap2, r2⟩ := pr
          simp only [Option.map_some', Option.some.injEq, Prod.mk.injEq] at h
          rw [← h.1]
          simp [ih hk]
      · rw [if_neg hc] at h; cases h

theorem stripKeepCI_to_lit :
    ∀ {w l cap r : List Char}, stripKeepCI w l = some (cap, r) →
      ∀ prev, ∃ p, stripLitE ciEq w prev l = some (p, r) := by
  intro w
  induction w with
  | nil =>
    intro l cap r h prev
    simp only [stripKeepCI, Option.some.injEq, Prod.mk.injEq] at h
    exact ⟨prev, by rw [stripLitE, h.2]⟩
  | cons a as ih =>
    intro l cap r h prev
    cases l with
    | nil => simp [stripKeepCI] at h
    | cons c cs =>
      simp only [stripKeepCI] at h
      by_cases hc : ciEq a c = true
      · rw [if_pos hc] at h
        cases hk : stripKeepCI as cs with
        | none => rw [hk] at h; cases h
        | some pr =>
          rw [hk] at h
          obtain ⟨cap2, r2⟩ := pr
          simp only [Option.map_some', Option.some.injEq, Prod.mk.injEq] at h
          obtain ⟨p, hp⟩ := ih hk (some c)
          refine ⟨p, ?_⟩
          simp only [stripLitE, hc, if_true]
          rw [hp, h.2]
      · rw [if_neg hc] at h; cases h

theorem stripLitE_append (eq : Char → Char → Bool) :
    ∀ (p1 p2 : List Char) (prev : Option Char) (l : List Char),
      stripLitE eq (p1 ++ p2) prev l =
        (stripLitE eq p1 prev l).bind fun r => stripLitE eq p2 r.1 r.2 := by
  intro p1
  induction p1 with
  | nil => intro p2 prev l; rfl
  | cons a as ih =>
    intro p2 prev l
    cases l with
    | nil => rfl
    | cons c cs =>
      simp only [List.cons_append, stripLitE]
      by_cases hc : eq a c = true
      · rw [if_pos hc, if_pos hc]
        exact ih p2 (some c) cs
      · rw [if_neg hc, if_neg hc]; rfl

theorem takeWhile_all_append {p : Char → Bool} :
    ∀ {ds post : List Char}, (∀ c ∈ ds, p c = true) →
      (∀ c, post.head? = some c → p c = false) →
      (ds ++ post).takeWhile p = ds ∧ (ds ++ post).dropWhile p = post := by
  intro ds
  induction ds with
  | nil =>
    intro post _ hpost
    cases post with
    | nil => exact ⟨rfl, rfl⟩
    | cons c cs =>
      have := hpost c rfl
      constructor
      · simp [List.takeWhile, this]
      · simp [List.dropWhile, this]
  | cons d ds ih =>
    intro post hds hpost
    have hd : p d = true := hds d (List.mem_cons_self d ds)
    have := ih (fun c hc => hds c (List.mem_cons_of_mem d hc)) hpost
    constructor
    · simp [List.takeWhile, hd, this.1]
    · simp [List.dropWhile, hd, this.2]

theorem mk_ne_empty {c : Char} {l : List Char} : String.mk (c :: l) ≠ "" := by
  intro h
  have := congrArg String.data h
  simp at this

theorem scanO_fixed {β : Type} {m : Option Char → List Char → Option β}
    (hm : ∀ p1 p2 l, m p1 l = m p2 l) (p1 p2 : Option Char) (l : List Char) :
    scanO m p1 l = scanO m p2 l := by
  cases l with
  | nil => exact hm p1 p2 []
  | cons c cs => simp only [scanO, hm p1 p2 (c :: cs)]

theorem scanO_exists_suffix {β : Type} {m : Option Char → List Char → Option β} :
    ∀ {prev : Option Char} {l : List Char} {b : β},
      scanO m prev l = some b →
      ∃ p' l', l' <:+ l ∧ m p' l' = some b := by
  intro prev l
  induction l generalizing prev with
  | nil => intro b h; exact ⟨prev, [], List.suffix_refl [], h⟩
  | cons c cs ih =>
    intro b h
    simp only [scanO] at h
    cases hm : m prev (c :: cs) with
    | some b2 =>
      rw [hm] at h
      simp only [Option.some.injEq] at h
      exact ⟨prev, c :: cs, List.suffix_refl _, by rw [hm, h]⟩
    | none =>
      rw [hm] at h
      obtain ⟨p', l', hsuf, hm'⟩ := ih h
      exact ⟨p', l', hsuf.trans (List.suffix_cons c cs), hm'⟩

theorem itemIdScan_pre (reqB : Bool) :
    ∀ (pre : List Char) (prev : Option Char) (tail : List Char),
      (∀ c ∈ pre, ¬(c = '?' ∨ c = '&')) →
      scanO (itemIdCapAt reqB) prev (pre ++ tail) =
        scanO (itemIdCapAt reqB) none tail := by
  intro pre
  induction pre with
  | nil =>
    intro prev tail _
    exact @scanO_fixed _ (itemIdCapAt reqB) (fun _ _ _ => rfl) prev none tail
  | cons c pre ih =>
    intro prev tail hpre
    have hc : ¬(c = '?' ∨ c = '&') := hpre c (List.mem_cons_self c pre)
    have h1 : (c == '?') = false :=
      beq_eq_false_iff_ne.mpr fun h => hc (Or.inl h)
    have h2 : (c == '&') = false :=
      beq_eq_false_iff_ne.mpr fun h => hc (Or.inr h)
    have hcap : ∀ l' : List Char, itemIdCapAt reqB prev (c :: l') = none := by
      intro l'
      simp only [itemIdCapAt, h1, h2, Bool.or_self, Bool.false_eq_true,
        if_false]
    simp only [List.cons_append, scanO, hcap]
    exact ih (some c) tail fun x hx => hpre x (List.mem_cons_of_mem c hx)

theorem itemIdScan_pre_cap (reqB : Bool) :
    ∀ (pre : List Char) (prev : Option Char) (tail : List Char),
      (∀ i, i < pre.length →
        itemIdCapAt reqB none (pre.drop i ++ tail) = none) →
      scanO (itemIdCapAt reqB) prev (pre ++ tail) =
        scanO (itemIdCapAt reqB) none tail := by
  intro pre
  induction pre with
  | nil =>
    intro prev tail _
    exact @scanO_fixed _ (itemIdCapAt reqB) (fun _ _ _ => rfl) prev none tail
  | cons c pre ih =>
    intro prev tail h
    have h0 : itemIdCapAt reqB none (c :: (pre ++ tail)) = none := by
      have := h 0 (Nat.succ_pos pre.length)
      simpa using this
    have hcap : itemIdCapAt reqB prev (c :: (pre ++ tail)) = none := h0
    have hcap2 : itemIdCapAt reqB prev (c :: List.append pre tail) = none := h0
    simp only [List.cons_append, scanO, hcap, hcap2]
    exact ih (some c) tail fun i hi => by
      have := h (i + 1) (Nat.succ_lt_succ hi)
      simpa using this

theorem isWordChar_of_isDigit {c : Char} (h : isDigitA c = true) :
    isWordChar c = true := by
  simp only [isDigitA, Bool.and_eq_true, decide_eq_true_eq] at h
  simp only [isWordChar, Bool.or_eq_true, Bool.and_eq_true, decide_eq_true_eq,
    beq_iff_eq]
  omega

theorem itemIdCapAt_hit (reqB : Bool) (sep : Char) (ds post : List Char)
    (hsep : sep = '?' ∨ sep = '&') (hlen : 6 ≤ ds.length)
    (hds : ∀ c ∈ ds, isDigitA c = true)
    (hpost : ∀ c, post.head? = some c → isDigitA c = false)
    (hb : (!reqB || !isWordO post.head?) = true) (prev : Option Char) :
    itemIdCapAt reqB prev (sep :: ("itemId=MLU".data ++ ds ++ post)) =
      some ("MLU".data ++ ds) := by
  have hsepb : (sep == '?' || sep == '&') = true := by
    rcases hsep with h | h <;> simp [h]
  have hsplit : ("itemId=MLU".data : List Char) ++ ds ++ post =
      "itemId=".data ++ ("MLU".data ++ (ds ++ post)) := by
    have : ("itemId=MLU".data : List Char) =
        "itemId=".data ++ "MLU".data := by decide
    rw [this, List.append_assoc, List.append_assoc]
  obtain ⟨p, hp⟩ :=
    stripLitE_ci_pfx "itemId=".data none ("MLU".data ++ (ds ++ post))
  have hsp := takeWhile_all_append hds hpost
  simp only [itemIdCapAt, hsepb, if_true, hsplit, hp, Option.some_bind,
    stripKeepCI_pfx, hsp.1, hsp.2, hlen]
  simp [hb]

theorem itemIdScan_structured (reqB : Bool) (pre ds post : List Char)
    (sep : Char) (hsep : sep = '?' ∨ sep = '&')
    (hpre : ∀ i, i < pre.length →
      itemIdCapAt reqB none
        (pre.drop i ++ sep :: ("itemId=MLU".data ++ ds ++ post)) = none)
    (hlen : 6 ≤ ds.length)
    (hds : ∀ c ∈ ds, isDigitA c = true)
    (hpost : ∀ c, post.head? = some c → isDigitA c = false)
    (hb : (!reqB || !isWordO post.head?) = true) :
    itemIdScan reqB (pre ++ sep :: ("itemId=MLU".data ++ ds ++ post)) =
      some ("MLU".data ++ ds) := by
  unfold itemIdScan scan
  rw [itemIdScan_pre_cap reqB pre none _ hpre]
  simp only [scanO,
    itemIdCapAt_hit reqB sep ds post hsep hlen hds hpost hb none]

theorem stripLitE_isSome_prev {eq : Char → Char → Bool} :
    ∀ (pat : List Char) (p1 p2 : Option Char) (l : List Char),
      (stripLitE eq pat p1 l).isSome = (stripLitE eq pat p2 l).isSome := by
  intro pat
  cases pat with
  | nil => intro p1 p2 l; rfl
  | cons a as =>
    intro p1 p2 l
    cases l with
    | nil => rfl
    | cons c cs => rfl

theorem containsAt_fixed (pat : List Char) :
    ∀ (p1 p2 : Option Char) (l : List Char),
      containsAt pat p1 l = containsAt pat p2 l := by
  intro p1 p2 l
  simp only [containsAt]
  have := @stripLitE_isSome_prev ciEq pat p1 p2 l
  cases h1 : stripLitE ciEq pat p1 l with
  | none =>
    rw [h1] at this
    cases h2 : stripLitE ciEq pat p2 l with
    | none => rfl
    | some r2 => rw [h2] at this; cases this
  | some r1 =>
    rw [h1] at this
    cases h2 : stripLitE ciEq pat p2 l with
    | none => rw [h2] at this; cases this
    | some r2 => rfl

theorem containsCI_cons {pat : List Char} {c : Char} {cs : List Char}
    (h : containsCI pat cs = true) : containsCI pat (c :: cs) = true := by
  simp only [containsCI, rtest, scan] at h ⊢
  simp only [scanO]
  cases hm : containsAt pat none (c :: cs) with
  | some u => rfl
  | none =>
    rw [scanO_fixed (containsAt_fixed pat) (some c) none cs]
    exact h

theorem containsCI_of_strip {pat l : List Char} {prev : Option Char}
    {p : Option Char × List Char}
    (h : stripLitE ciEq pat prev l = some p) : containsCI pat l = true := by
  have hs : containsAt pat none l = some () := by
    simp only [containsAt]
    have := @stripLitE_isSome_prev ciEq pat none prev l
    rw [h] at this
    cases hx : stripLitE ciEq pat none l with
    | none => rw [hx] at this; cases this
    | some r => rfl
  simp only [containsCI, rtest, scan]
  cases l with
  | nil => simp only [scanO, hs, Option.isSome_some]
  | cons c cs => simp only [scanO, hs, Option.isSome_some]

theorem strip_itemIdMLU {cs : List Char} {pr : Option Char × List Char}
    {mr : List Char × List Char}
    (hs : stripLitE ciEq "itemId=".data none cs = some pr)
    (hk : stripKeepCI "MLU".data pr.2 = some mr) :
    containsCI "itemId=MLU".data cs = true := by
  obtain ⟨p2, hp2⟩ := stripKeepCI_to_lit hk pr.1
  have hcomp : stripLitE ciEq ("itemId=".data ++ "MLU".data) none cs =
      some (p2, mr.2) := by
    rw [stripLitE_append, hs, Option.some_bind, hp2]
  have hlit : ("itemId=MLU".data : List Char) =
      "itemId=".data ++ "MLU".data := by decide
  exact containsCI_of_strip (by rw [hlit]; exact hcomp)

theorem itemIdCapAt_contains {reqB : Bool} {prev : Option Char}
    {l cap : List Char} (h : itemIdCapAt reqB prev l = some cap) :
    ∃ c cs, l = c :: cs ∧ containsCI "itemId=MLU".data cs = true := by
  cases l with
  | nil => cases h
  | cons c cs =>
    refine ⟨c, cs, rfl, ?_⟩
    dsimp only [itemIdCapAt] at h
    by_cases hsep : (c == '?' || c == '&') = true
    · rw [if_pos hsep] at h
      cases hs : stripLitE ciEq "itemId=".data none cs with
      | none => rw [hs] at h; cases h
      | some pr =>
        rw [hs, Option.some_bind] at h
        cases hk : stripKeepCI "MLU".data pr.2 with
        | none => rw [hk] at h; cases h
        | some mr => exact strip_itemIdMLU hs hk
    · rw [if_neg hsep] at h; cases h

theorem itemIdScan_none_of_not_contains {reqB : Bool} :
    ∀ {l : List Char}, containsCI "itemId=MLU".data l = false →
      itemIdScan reqB l = none := by
  intro l
  induction l with
  | nil => intro _; rfl
  | cons c cs ih =>
    intro h
    have hcs : containsCI "itemId=MLU".data cs = false := by
      cases hx : containsCI "itemId=MLU".data cs
      · rfl
      · rw [containsCI_cons hx] at h; cases h
    show scanO (itemIdCapAt reqB) none (c :: cs) = none
    simp only [scanO]
    cases hm : itemIdCapAt reqB none (c :: cs) with
    | some cap =>
      obtain ⟨c2, cs2, heq, hcont⟩ := itemIdCapAt_contains hm
      obtain ⟨rfl, rfl⟩ : c2 = c ∧ cs2 = cs := by
        injection heq with h1 h2; exact ⟨h1.symm, h2.symm⟩
      rw [hcont] at hcs; cases hcs
    | none =>
      rw [@scanO_fixed _ (itemIdCapAt reqB) (fun _ _ _ => rfl) (some c) none
        cs]
      exact ih hcs

theorem weirdAfterSep_contains {l cap : List Char}
    (h : weirdAfterSep l = some cap) :
    containsCI "itemId=MLU".data l = true := by
  unfold weirdAfterSep at h
  cases hs : stripLitE ciEq "itemId=".data none l with
  | none => rw [hs] at h; cases h
  | some pr =>
    rw [hs, Option.some_bind] at h
    cases hk : stripKeepCI "MLU".data pr.2 with
    | none => rw [hk] at h; cases h
    | some mr => exact strip_itemIdMLU hs hk

theorem weirdItemIdAt_some {prev : Option Char} {l cap : List Char}
    (h : weirdItemIdAt prev l = some cap) :
    containsCI "itemId=MLU".data l = true ∨
      ∃ c cs, l = c :: cs ∧ containsCI "itemId=MLU".data cs = true := by
  cases l with
  | nil => simp [weirdItemIdAt, weirdAfterSep, stripLitE] at h
  | cons c cs =>
    dsimp only [weirdItemIdAt] at h
    by_cases hbk : c = bkS
    · rw [if_pos hbk] at h
      cases hw : weirdAfterSep cs with
      | some cap2 => exact Or.inr ⟨c, cs, rfl, weirdAfterSep_contains hw⟩
      | none =>
        rw [hw] at h
        dsimp only at h
        cases hw2 : weirdAfterSep (c :: cs) with
        | some cap2 => exact Or.inl (weirdAfterSep_contains hw2)
        | none =>
          rw [hw2] at h
          dsimp only at h
          by_cases ha : c = '&'
          · rw [if_pos ha] at h; cases h
          · rw [if_neg ha] at h; cases h
    · rw [if_neg hbk] at h
      dsimp only at h
      cases hw2 : weirdAfterSep (c :: cs) with
      | some cap2 => exact Or.inl (weirdAfterSep_contains hw2)
      | none =>
        rw [hw2] at h
        dsimp only at h
        by_cases ha : c = '&'
        · rw [if_pos ha] at h
          cases hw3 : weirdAfterSep cs with
          | some cap3 => exact Or.inr ⟨c, cs, rfl, weirdAfterSep_contains hw3⟩
          | none => rw [hw3] at h; cases h
        · rw [if_neg ha] at h; cases h

theorem weirdScan_none_of_not_contains :
    ∀ {l : List Char}, containsCI "itemId=MLU".data l = false →
      scan weirdItemIdAt l = none := by
  intro l
  induction l with
  | nil => intro _; rfl
  | cons c cs ih =>
    intro h
    have hcs : containsCI "itemId=MLU".data cs = false := by
      cases hx : containsCI "itemId=MLU".data cs
      · rfl
      · rw [containsCI_cons hx] at h; cases h
    show scanO weirdItemIdAt none (c :: cs) = none
    simp only [scanO]
    cases hm : weirdItemIdAt none (c :: cs) with
    | some cap =>
      exfalso
      rcases weirdItemIdAt_some hm with hc1 | ⟨c2, cs2, heq, hc2⟩
      · rw [hc1] at h; cases h
      · injection heq with e1 e2
        rw [← e2] at hc2
        rw [hc2] at hcs; cases hcs
    | none =>
      rw [@scanO_fixed _ weirdItemIdAt (fun _ _ _ => rfl) (some c) none cs]
      exact ih hcs

theorem stripLitE_rest_sub {eq : Char → Char → Bool} :
    ∀ {pat : List Char} {prev : Option Char} {l : List Char}
      {p : Option Char} {r : List Char},
      stripLitE eq pat prev l = some (p, r) → ∀ x ∈ r, x ∈ l := by
  intro pat
  induction pat with
  | nil =>
    intro prev l p r h x hx
    simp only [stripLitE, Option.some.injEq, Prod.mk.injEq] at h
    rw [← h.2] at hx
    exact hx
  | cons a as ih =>
    intro prev l p r h x hx
    cases l with
    | nil => cases h
    | cons c cs =>
      simp only [stripLitE] at h
      by_cases hc : eq a c = true
      · rw [if_pos hc] at h
        exact List.mem_cons_of_mem c (ih h x hx)
      · rw [if_neg hc] at h; cases h

theorem stripKeepCI_rest_sub :
    ∀ {pat l cap r : List Char},
      stripKeepCI pat l = some (cap, r) → ∀ x ∈ r, x ∈ l := by
  intro pat
  induction pat with
  | nil =>
    intro l cap r h x hx
    simp only [stripKeepCI, Option.some.injEq, Prod.mk.injEq] at h
    rw [← h.2] at hx
    exact hx
  | cons a as ih =>
    intro l cap r h x hx
    cases l with
    | nil => cases h
    | cons c cs =>
      simp only [stripKeepCI] at h
      by_cases hc : ciEq a c = true
      · rw [if_pos hc] at h
        cases hk : stripKeepCI as cs with
        | none => rw [hk] at h; cases h
        | some pr =>
          rw [hk] at h
          obtain ⟨cap2, r2⟩ := pr
          simp only [Option.map_some', Option.some.injEq, Prod.mk.injEq] at h
          rw [← h.2] at hx
          exact List.mem_cons_of_mem c (ih hk x hx)
      · rw [if_neg hc] at h; cases h

theorem weirdAfterSep_bk {l cap : List Char} (h : weirdAfterSep l = some cap) :
    bkS ∈ l := by
  unfold weirdAfterSep at h
  cases hs : stripLitE ciEq "itemId=".data none l with
  | none => rw [hs] at h; cases h
  | some pr =>
    rw [hs, Option.some_bind] at h
    cases hk : stripKeepCI "MLU".data pr.2 with
    | none => rw [hk] at h; cases h
    | some mr =>
      rw [hk, Option.some_bind] at h
      cases hm2 : mr.2 with
      | nil => rw [hm2] at h; cases h
      | cons c r3 =>
        rw [hm2] at h
        dsimp only at h
        by_cases hc : c = bkS
        · have hin : bkS ∈ mr.2 := by
            rw [hm2, ← hc]; exact List.mem_cons_self c r3
          obtain ⟨p0, r0⟩ := pr
          exact stripLitE_rest_sub hs bkS (stripKeepCI_rest_sub hk bkS hin)
        · rw [if_neg hc] at h; cases h

theorem weirdItemIdAt_bk {prev : Option Char} {l cap : List Char}
    (h : weirdItemIdAt prev l = some cap) : bkS ∈ l := by
  cases l with
  | nil => simp [weirdItemIdAt, weirdAfterSep, stripLitE] at h
  | cons c cs =>
    dsimp only [weirdItemIdAt] at h
    by_cases hbk : c = bkS
    · rw [← hbk]; exact List.mem_cons_self c cs
    · rw [if_neg hbk] at h
      dsimp only at h
      cases hw2 : weirdAfterSep (c :: cs) with
      | some cap2 => exact weirdAfterSep_bk hw2
      | none =>
        rw [hw2] at h
        dsimp only at h
        by_cases ha : c = '&'
        · rw [if_pos ha] at h
          cases hw3 : weirdAfterSep cs with
          | some cap3 =>
            exact List.mem_cons_of_mem c (weirdAfterSep_bk hw3)
          | none => rw [hw3] at h; cases h
        · rw [if_neg ha] at h; cases h

theorem weirdScan_none_no_bk {l : List Char} (h : ∀ x ∈ l, x ≠ bkS) :
    scan weirdItemIdAt l = none := by
  cases hx : scan weirdItemIdAt l with
  | none => rfl
  | some cap =>
    exfalso
    obtain ⟨p', l', hsuf, hm⟩ := scanO_exists_suffix hx
    exact h bkS (hsuf.subset (weirdItemIdAt_bk hm)) rfl

theorem itemIdCapAt_ne_nil {reqB : Bool} {prev : Option Char}
    {l cap : List Char} (h : itemIdCapAt reqB prev l = some cap) :
    cap ≠ [] := by
  cases l with
  | nil => cases h
  | cons c cs =>
    dsimp only [itemIdCapAt] at h
    by_cases hsep : (c == '?' || c == '&') = true
    · rw [if_pos hsep] at h
      cases hs : stripLitE ciEq "itemId=".data none cs with
      | none => rw [hs] at h; cases h
      | some pr =>
        rw [hs, Option.some_bind] at h
        cases hk : stripKeepCI "MLU".data pr.2 with
        | none => rw [hk] at h; cases h
        | some mr =>
          rw [hk, Option.some_bind] at h
          have hlen := stripKeepCI_len hk
          split at h
          · simp only [Option.some.injEq] at h
            intro hnil
            rw [← h] at hnil
            have hlen2 := congrArg List.length hnil
            have hml : ("MLU".data : List Char).length = 3 := by decide
            simp only [List.length_append, List.length_nil] at hlen2
            omega
          · cases h
    · rw [if_neg hsep] at h; cases h

theorem itemIdScan_ne_nil {reqB : Bool} {l cap : List Char}
    (h : itemIdScan reqB l = some cap) : cap ≠ [] := by
  obtain ⟨p', l', _, hm⟩ := scanO_exists_suffix h
  exact itemIdCapAt_ne_nil hm

theorem pickItemId_append :
    ∀ (hs rest : List (Option String)),
      (∀ x ∈ hs, pickItemId [x] = "") →
      pickItemId (hs ++ rest) = pickItemId rest := by
  intro hs
  induction hs with
  | nil => intro rest _; rfl
  | cons x hs ih =>
    intro rest h
    have hx : pickItemId [x] = "" := h x (List.mem_cons_self x hs)
    have htl : ∀ y ∈ hs, pickItemId [y] = "" := fun y hy =>
      h y (List.mem_cons_of_mem x hy)
    cases x with
    | none =>
      show pickItemId (hs ++ rest) = pickItemId rest
      exact ih rest htl
    | some s =>
      show (if s = "" then pickItemId (hs ++ rest) else
        match itemIdScan true s.data with
        | some cap => String.mk cap
        | none => pickItemId (hs ++ rest)) = pickItemId rest
      by_cases hs0 : s = ""
      · rw [if_pos hs0]; exact ih rest htl
      · rw [if_neg hs0]
        cases hscan : itemIdScan true s.data with
        | some cap =>
          exfalso
          have hshape : pickItemId [some s] = String.mk cap := by
            show (if s = "" then pickItemId ([] : List (Option String)) else
              match itemIdScan true s.data with
              | some cap2 => String.mk cap2
              | none => pickItemId ([] : List (Option String))) =
                String.mk cap
            rw [if_neg hs0, hscan]
          rw [hx] at hshape
          obtain ⟨c0, l0, hc0⟩ :=
            List.exists_cons_of_ne_nil (itemIdScan_ne_nil hscan)
          rw [hc0] at hshape
          exact mk_ne_empty hshape.symm
        | none => exact ih rest htl

theorem pick_both_of_scan {big cap : List Char} (hne : big ≠ [])
    (hscan : itemIdScan true big = some cap) :
    pickItemId [some (String.mk big)] = String.mk cap ∧
      pickItemIdFromHrefB (some (String.mk big)) = String.mk cap := by
  have hsne : String.mk big ≠ "" := by
    intro he
    exact hne (by simpa using congrArg String.data he)
  constructor
  · show (if String.mk big = "" then pickItemId ([] : List (Option String))
      else
        match itemIdScan true (String.mk big).data with
        | some cap2 => String.mk cap2
        | none => pickItemId ([] : List (Option String))) = String.mk cap
    rw [if_neg hsne]
    show (match itemIdScan true big with
      | some cap2 => String.mk cap2
      | none => pickItemId ([] : List (Option String))) = String.mk cap
    rw [hscan]
  · show (if String.mk big = "" then ""
      else
        match itemIdScan true (String.mk big).data with
        | some cap2 => String.mk cap2
        | none => "") = String.mk cap
    rw [if_neg hsne]
    show (match itemIdScan true big with
      | some cap2 => String.mk cap2
      | none => "") = String.mk cap
    rw [hscan]

/-- C3 amended: the extractors with the correctly-escaped pattern
(`pickItemId` and the second `pickItemIdFromHref`) return the identifier
of the first `?`/`&`-introduced `itemId=MLU<digits>` parameter whose at
least six digits are followed by a non-word character or the end of the
href — "first" meaning that the item-id pattern matches at no position of
the href before that parameter's separator, which the hypothesis states
with `itemIdCapAt` on every earlier position; the prefix may freely
contain other `?`/`&` parameters.  Earlier list entries that yield
nothing are skipped; the first `pickItemIdFromHref` copy (double-escaped
regex) returns `""` on every href free of literal backslashes; and hrefs
not containing the text `itemId=MLU` (case-insensitively) make all three
return `""`. -/
theorem claim_C3_amended :
    (∀ (pre ds post : List Char) (sep : Char),
      sep = '?' ∨ sep = '&' →
      (∀ i, i < pre.length →
        itemIdCapAt true none
          (pre.drop i ++ sep :: ("itemId=MLU".data ++ ds ++ post)) = none) →
      6 ≤ ds.length →
      (∀ c ∈ ds, isDigitA c = true) →
      isWordO post.head? = false →
      pickItemId
          [some (String.mk (pre ++ sep :: ("itemId=MLU".data ++ ds ++ post)))] =
          String.mk ("MLU".data ++ ds) ∧
        pickItemIdFromHrefB
            (some (String.mk (pre ++ sep :: ("itemId=MLU".data ++ ds ++ post)))) =
          String.mk ("MLU".data ++ ds)) ∧
    (∀ (hs rest : List (Option String)),
      (∀ x ∈ hs, pickItemId [x] = "") →
      pickItemId (hs ++ rest) = pickItemId rest) ∧
    (∀ h : String, (∀ x ∈ h.data, x ≠ bkS) →
      pickItemIdFromHrefA (some h) = "") ∧
    (∀ h : String, containsCI "itemId=MLU".data h.data = false →
      pickItemId [some h] = "" ∧ pickItemIdFromHrefB (some h) = "" ∧
        pickItemIdFromHrefA (some h) = "") := by
  refine ⟨?_, pickItemId_append, ?_, ?_⟩
  · intro pre ds post sep hsep hpre hlen hds hword
    have hpost : ∀ c, post.head? = some c → isDigitA c = false := by
      intro c hc
      cases hd : isDigitA c
      · rfl
      · exfalso
        have hw : isWordO post.head? = true := by
          rw [hc]; exact isWordChar_of_isDigit hd
        rw [hw] at hword; cases hword
    have hb : (!true || !isWordO post.head?) = true := by
      rw [hword]; rfl
    have hscan :=
      itemIdScan_structured true pre ds post sep hsep hpre hlen hds hpost hb
    have hne : pre ++ sep :: ("itemId=MLU".data ++ ds ++ post) ≠ [] := by
      simp
    exact pick_both_of_scan hne hscan
  · intro h hbk
    show (if h = "" then ""
      else
        match scan weirdItemIdAt h.data with
        | some cap => String.mk cap
        | none => "") = ""
    by_cases h0 : h = ""
    · rw [if_pos h0]
    · rw [if_neg h0, weirdScan_none_no_bk hbk]
  · intro h hnc
    refine ⟨?_, ?_, ?_⟩
    · show (if h = "" then pickItemId ([] : List (Option String))
        else
          match itemIdScan true h.data with
          | some cap => String.mk cap
          | none => pickItemId ([] : List (Option String))) = ""
      by_cases h0 : h = ""
      · rw [if_pos h0]; rfl
      · rw [if_neg h0, itemIdScan_none_of_not_contains hnc]
        rfl
    · show (if h = "" then ""
        else
          match itemIdScan true h.data with
          | some cap => String.mk cap
          | none => "") = ""
      by_cases h0 : h = ""
      · rw [if_pos h0]
      · rw [if_neg h0, itemIdScan_none_of_not_contains hnc]
    · show (if h = "" then ""
        else
          match scan weirdItemIdAt h.data with
          | some cap => String.mk cap
          | none => "") = ""
      by_cases h0 : h = ""
      · rw [if_pos h0]
      · rw [if_neg h0, weirdScan_none_of_not_contains hnc]

/-- Witness for C3 (amended): the multi-parameter href
`?a=1&itemId=MLU123456`, whose itemId parameter is introduced by the
second separator of the query string. -/
theorem claim_C3_witness :
    pickItemId
        [some (String.mk ("?a=1".data ++ '&' ::
          ("itemId=MLU".data ++ "123456".data ++ ([] : List Char))))] =
        String.mk ("MLU".data ++ "123456".data) ∧
      pickItemIdFromHrefB
          (some (String.mk ("?a=1".data ++ '&' ::
            ("itemId=MLU".data ++ "123456".data ++ ([] : List Char))))) =
        String.mk ("MLU".data ++ "123456".data) :=
  claim_C3_amended.1 "?a=1".data "123456".data [] '&' (Or.inr rfl)
    (by decide) (by decide) (by decide) (by decide)

/-- C6 as stated is false at the empty record list: the output is the
header line followed by one blank line, not by zero record lines. -/
theorem claim_C6_counterexample :
    recordsToCsv [] =
      "SKU,ITEM_ID,ESTADO_COMPETENCIA,ESTADO_OPERATIVO,TITULO,URL,TIMESTAMP\n\n" ∧
    "SKU,ITEM_ID,ESTADO_COMPETENCIA,ESTADO_OPERATIVO,TITULO,URL,TIMESTAMP\n\n" ≠
      "SKU,ITEM_ID,ESTADO_COMPETENCIA,ESTADO_OPERATIVO,TITULO,URL,TIMESTAMP\n" ∧
    "SKU,ITEM_ID,ESTADO_COMPETENCIA,ESTADO_OPERATIVO,TITULO,URL,TIMESTAMP\n\n" ≠
      "SKU,ITEM_ID,ESTADO_COMPETENCIA,ESTADO_OPERATIVO,TITULO,URL,TIMESTAMP" :=
  ⟨by decide, by decide, by decide⟩

theorem csvRowLine_eq_claim (r : RowWithTs) : csvRowLine r = claimCsvLine r := by
  simp [csvRowLine, claimCsvLine, joinComma, esc, String.append_assoc]

/-- C6 amended: the CSV is exactly the header line, a newline, the record
lines (one per record, in input order, as the claim describes them)
joined with newlines, and a final newline; for the empty list this yields
one blank line after the header. -/
theorem claim_C6_amended :
    ∀ rows : List RowWithTs,
      recordsToCsv rows =
        "SKU,ITEM_ID,ESTADO_COMPETENCIA,ESTADO_OPERATIVO,TITULO,URL,TIMESTAMP" ++
          "\n" ++ joinNl (rows.map claimCsvLine) ++ "\n" := by
  intro rows
  have hmap : rows.map csvRowLine = rows.map claimCsvLine := by
    have : csvRowLine = claimCsvLine := funext csvRowLine_eq_claim
    rw [this]
  have hhdr : csvHeader =
      "SKU,ITEM_ID,ESTADO_COMPETENCIA,ESTADO_OPERATIVO,TITULO,URL,TIMESTAMP" ++
        "\n" := by decide
  rw [recordsToCsv, hmap, hhdr, String.append_assoc, String.append_assoc]

theorem groupsGet_push (g : Groups) (r : Row) (c : Competencia) :
    groupsGet (pushGroup g r) c =
      if r.estado_competencia = c then groupsGet g c ++ [r]
      else groupsGet g c := by
  cases hr : r.estado_competencia <;> cases c <;>
    simp [pushGroup, groupsGet, hr]

theorem groupsOf_acc :
    ∀ (rows : List Row) (g : Groups) (c : Competencia),
      groupsGet (rows.foldl pushGroup g) c =
        groupsGet g c ++ rows.filter (fun r => r.estado_competencia == c) := by
  intro rows
  induction rows with
  | nil => intro g c; simp
  | cons r rows ih =>
    intro g c
    rw [List.foldl_cons, ih (pushGroup g r) c, groupsGet_push]
    by_cases hr : r.estado_competencia = c
    · rw [if_pos hr]
      have hpr : (fun x => x.estado_competencia == c) r = true := by
        simp [hr]
      simp [List.filter_cons, hpr, List.append_assoc]
    · rw [if_neg hr]
      have hpr : (fun x => x.estado_competencia == c) r = false := by
        simp [hr]
      simp [List.filter_cons, hpr]

theorem opGet_bump (a : OpCounts) (r : Row) (o : Operativo) :
    opGet (bumpOp a r) o =
      if r.estado_operativo = o then opGet a o + 1 else opGet a o := by
  cases hr : r.estado_operativo <;> cases o <;> simp [bumpOp, opGet, hr]

theorem opCountsOf_acc :
    ∀ (rows : List Row) (a : OpCounts) (o : Operativo),
      opGet (rows.foldl bumpOp a) o =
        opGet a o +
          (rows.filter (fun r => r.estado_operativo == o)).length := by
  intro rows
  induction rows with
  | nil => intro a o; simp
  | cons r rows ih =>
    intro a o
    rw [List.foldl_cons, ih (bumpOp a r) o, opGet_bump]
    by_cases hr : r.estado_operativo = o
    · rw [if_pos hr]
      have hpr : (fun x => x.estado_operativo == o) r = true := by simp [hr]
      simp [List.filter_cons, hpr]
      omega
    · rw [if_neg hr]
      have hpr : (fun x => x.estado_operativo == o) r = false := by simp [hr]
      simp [List.filter_cons, hpr]

theorem comp_filter_sum (rows : List Row) :
    (rows.filter (fun r => r.estado_competencia == Competencia.ganando)).length +
      (rows.filter (fun r => r.estado_competencia == Competencia.compartiendo)).length +
      (rows.filter (fun r => r.estado_competencia == Competencia.perdiendo)).length +
      (rows.filter (fun r => r.estado_competencia == Competencia.sinEstado)).length =
      rows.length := by
  induction rows with
  | nil => rfl
  | cons r rows ih =>
    cases hr : r.estado_competencia <;>
      simp [List.filter_cons, hr, List.length_cons] <;> omega

theorem op_filter_sum (rows : List Row) :
    (rows.filter (fun r => r.estado_operativo == Operativo.activa)).length +
      (rows.filter (fun r => r.estado_operativo == Operativo.pausada)).length +
      (rows.filter (fun r => r.estado_operativo == Operativo.inactiva)).length +
      (rows.filter (fun r => r.estado_operativo == Operativo.unknown)).length =
      rows.length := by
  induction rows with
  | nil => rfl
  | cons r rows ih =>
    cases hr : r.estado_operativo <;>
      simp [List.filter_cons, hr, List.length_cons] <;> omega

/-- C7: `summarize` returns `total` equal to the row count; `groups`
partitions the rows by `estado_competencia` in input order; each
`compCounts` entry is its group's size; each `opCounts` entry counts the
rows with that `estado_operativo`; and both families of four counters sum
to `total`. -/
theorem claim_C7_summarize :
    ∀ rows : List Row,
      summarizeTotal rows = rows.length ∧
      (∀ c, groupsGet (groupsOf rows) c =
        rows.filter (fun r => r.estado_competencia == c)) ∧
      (∀ c, compCounts rows c = (groupsGet (groupsOf rows) c).length) ∧
      (∀ o, opGet (opCountsOf rows) o =
        (rows.filter (fun r => r.estado_operativo == o)).length) ∧
      compCounts rows .ganando + compCounts rows .compartiendo +
          compCounts rows .perdiendo + compCounts rows .sinEstado =
        summarizeTotal rows ∧
      opGet (opCountsOf rows) .activa + opGet (opCountsOf rows) .pausada +
          opGet (opCountsOf rows) .inactiva +
          opGet (opCountsOf rows) .unknown =
        summarizeTotal rows := by
  intro rows
  have hg : ∀ c, groupsGet (groupsOf rows) c =
      rows.filter (fun r => r.estado_competencia == c) := by
    intro c
    have := groupsOf_acc rows ⟨[], [], [], []⟩ c
    rw [groupsOf, this]
    cases c <;> simp [groupsGet]
  have ho : ∀ o, opGet (opCountsOf rows) o =
      (rows.filter (fun r => r.estado_operativo == o)).length := by
    intro o
    have := opCountsOf_acc rows ⟨0, 0, 0, 0⟩ o
    rw [opCountsOf, this]
    cases o <;> simp [opGet]
  refine ⟨rfl, hg, fun c => rfl, ho, ?_, ?_⟩
  · show compCounts rows .ganando + _ + _ + _ = rows.length
    simp only [compCounts, hg]
    exact comp_filter_sum rows
  · simp only [ho]
    exact op_filter_sum rows

theorem map_filter_eq_filterMap {α β : Type} (f : α → β) (p : β → Bool) :
    ∀ l : List α,
      (l.map f).filter p =
        l.filterMap fun x => if p (f x) then some (f x) else none := by
  intro l
  induction l with
  | nil => rfl
  | cons x l ih =>
    simp only [List.map_cons, List.filter_cons, List.filterMap_cons]
    by_cases hx : p (f x) = true <;> simp [hx, ih]

theorem filter_all_self (p : Char → Bool) :
    ∀ l : List Char, (l.filter p).all p = true := by
  intro l
  induction l with
  | nil => rfl
  | cons c cs ih =>
    simp only [List.filter_cons]
    by_cases hc : p c = true
    · rw [hc]; simp [List.all_cons, hc, ih]
    · rw [Bool.not_eq_true] at hc
      rw [hc]
      exact ih

theorem isJsWs_not_digit {c : Char} (h : isDigitA c = true) :
    isJsWs c = false := by
  simp only [isDigitA, Bool.and_eq_true, decide_eq_true_eq] at h
  cases hw : isJsWs c
  · rfl
  · exfalso
    simp only [isJsWs, Bool.or_eq_true, Bool.and_eq_true, decide_eq_true_eq,
      beq_iff_eq] at hw
    omega

theorem any_digit_trimLeft (l : List Char) :
    (trimLeftWs l).any isDigitA = l.any isDigitA := by
  induction l with
  | nil => rfl
  | cons c cs ih =>
    by_cases hc : isJsWs c = true
    · have hcd : isDigitA c = false := by
        cases hd : isDigitA c
        · rfl
        · rw [isJsWs_not_digit hd] at hc; cases hc
      simp [trimLeftWs, hc, List.any_cons, hcd, ih]
    · simp [trimLeftWs, hc]

theorem any_digit_trimRight (l : List Char) :
    (trimRightWs l).any isDigitA = l.any isDigitA := by
  induction l with
  | nil => rfl
  | cons c cs ih =>
    simp only [trimRightWs]
    cases hrec : trimRightWs cs with
    | nil =>
      rw [hrec] at ih
      simp only [List.any_nil] at ih
      simp only [trimRightCons]
      by_cases hc : isJsWs c = true
      · have hcd : isDigitA c = false := by
          cases hd : isDigitA c
          · rfl
          · rw [isJsWs_not_digit hd] at hc; cases hc
        simp [hc, List.any_cons, hcd, ← ih]
      · simp [hc, List.any_cons, ← ih]
    | cons d t =>
      rw [hrec] at ih
      simp only [trimRightCons, List.any_cons, ih]

theorem any_digit_jsTrim (s : String) :
    (jsTrim s).data.any isDigitA = s.data.any isDigitA := by
  show (trimRightWs (trimLeftWs s.data)).any isDigitA = s.data.any isDigitA
  rw [any_digit_trimRight, any_digit_trimLeft]

theorem digitsOnly_ne_iff (s : String) :
    (digitsOnly s != "") = s.data.any isDigitA := by
  show (String.mk (s.data.filter isDigitA) != "") = s.data.any isDigitA
  cases hf : s.data.filter isDigitA with
  | nil =>
    have hall := List.filter_eq_nil_iff.mp hf
    have hany : s.data.any isDigitA = false := by
      cases ha : s.data.any isDigitA
      · rfl
      · obtain ⟨x, hx, hdx⟩ := List.any_eq_true.mp ha
        exact absurd hdx (hall x hx)
    rw [hany]
    decide
  | cons c cs =>
    have h1 : (String.mk (c :: cs) != "") = true := by
      simp only [bne_iff_ne, ne_eq]
      exact mk_ne_empty
    rw [h1]
    have hc : c ∈ s.data.filter isDigitA := by
      rw [hf]; exact List.mem_cons_self c cs
    rw [List.mem_filter] at hc
    exact (List.any_eq_true.mpr ⟨c, hc.1, hc.2⟩).symm

theorem filterMap_congr_if {α β : Type} {f g : α → Option β} :
    ∀ {l : List α}, (∀ a ∈ l, f a = g a) → l.filterMap f = l.filterMap g := by
  intro l
  induction l with
  | nil => intro _; rfl
  | cons x l ih =>
    intro h
    simp only [List.filterMap_cons, h x (List.mem_cons_self x l)]
    cases g x with
    | none => exact ih fun a ha => h a (List.mem_cons_of_mem x ha)
    | some b => rw [ih fun a ha => h a (List.mem_cons_of_mem x ha)]

/-- C8: every entry of `readSkusCsv` is a non-empty digit string; the
entries are exactly those of the cleaned non-blank lines, after the
letter-initial header line is dropped, whose first comma- or tab-
separated field contains a digit; and no blank line survives the
cleaning. -/
theorem claim_C8_readSkus :
    (∀ (raw s : String), s ∈ readSkusCsv raw →
      s ≠ "" ∧ s.data.all isDigitA = true) ∧
    (∀ raw : String,
      readSkusCsv raw =
        ((cleanLines raw).drop
            (if startsLetter ((cleanLines raw).headD "") then 1
             else 0)).filterMap
          fun line =>
            if (firstField line).data.any isDigitA then
              some (digitsOnly (jsTrim (firstField line)))
            else none) ∧
    (∀ (raw l : String), l ∈ cleanLines raw → l ≠ "") := by
  refine ⟨?_, ?_, ?_⟩
  · intro raw s hs
    unfold readSkusCsv at hs
    rw [List.mem_filter] at hs
    have := hs.2
    rw [Bool.and_eq_true] at this
    exact ⟨bne_iff_ne.mp this.1, this.2⟩
  · intro raw
    unfold readSkusCsv
    dsimp only
    rw [List.map_map, map_filter_eq_filterMap]
    apply filterMap_congr_if
    intro line _
    have hall : (digitsOnly (jsTrim (firstField line))).data.all isDigitA =
        true := filter_all_self isDigitA (jsTrim (firstField line)).data
    have hcond :
        ((digitsOnly ∘ fun line => jsTrim (firstField line)) line != "" &&
          ((digitsOnly ∘ fun line => jsTrim (firstField line)) line).data.all
            isDigitA) = (firstField line).data.any isDigitA := by
      show (digitsOnly (jsTrim (firstField line)) != "" &&
        (digitsOnly (jsTrim (firstField line))).data.all isDigitA) = _
      rw [hall, Bool.and_true, digitsOnly_ne_iff, any_digit_jsTrim]
    rw [hcond]
    rfl
  · intro raw l hl
    unfold cleanLines at hl
    rw [List.mem_filter] at hl
    exact bne_iff_ne.mp hl.2

/-- Witness for C8: a file with a header line, one SKU line and a junk
line. -/
theorem claim_C8_witness :
    ("123" : String) ≠ "" ∧ ("123" : String).data.all isDigitA = true :=
  claim_C8_readSkus.1 "SKU\n123\nabc\n" "123" (by decide)

theorem rowLe_total {cmp : String → String → Int}
    (htot : ∀ a b, cmp a b ≤ 0 ∨ cmp b a ≤ 0) (a b : Row) :
    (rowLe cmp a b || rowLe cmp b a) = true := by
  simp only [rowLe]
  by_cases h : opRank a.estado_operativo = opRank b.estado_operativo
  · rw [h]
    simp only [ne_eq, not_true_eq_false, if_false, Bool.false_eq_true]
    rcases htot a.titulo b.titulo with hc | hc <;> simp [hc]
  · have h2 : opRank b.estado_operativo ≠ opRank a.estado_operativo :=
      fun he => h he.symm
    simp only [ne_eq, h, h2, not_false_eq_true, if_true]
    rcases Nat.lt_or_ge (opRank a.estado_operativo)
        (opRank b.estado_operativo) with hl | hl
    · simp [hl]
    · have : opRank b.estado_operativo < opRank a.estado_operativo :=
        Nat.lt_of_le_of_ne hl fun he => h he.symm
      simp [this]

theorem rowLe_trans {cmp : String → String → Int}
    (htr : ∀ a b c, cmp a b ≤ 0 → cmp b c ≤ 0 → cmp a c ≤ 0) (a b c : Row)
    (h1 : rowLe cmp a b = true) (h2 : rowLe cmp b c = true) :
    rowLe cmp a c = true := by
  simp only [rowLe] at h1 h2 ⊢
  by_cases e1 : opRank a.estado_operativo = opRank b.estado_operativo <;>
    by_cases e2 : opRank b.estado_operativo = opRank c.estado_operativo
  · rw [e1] at h1
    simp only [ne_eq, not_true_eq_false, if_false, Bool.false_eq_true,
      decide_eq_true_eq] at h1
    rw [e2] at h2
    simp only [ne_eq, not_true_eq_false, if_false, Bool.false_eq_true,
      decide_eq_true_eq] at h2
    rw [e1, e2]
    simp only [ne_eq, not_true_eq_false, if_false, Bool.false_eq_true,
      decide_eq_true_eq]
    exact htr _ _ _ h1 h2
  · simp only [ne_eq, e2, not_false_eq_true, if_true,
      decide_eq_true_eq] at h2
    have : opRank a.estado_operativo ≠ opRank c.estado_operativo := by
      rw [e1]; omega
    simp only [ne_eq, this, not_false_eq_true, if_true, decide_eq_true_eq]
    omega
  · simp only [ne_eq, e1, not_false_eq_true, if_true,
      decide_eq_true_eq] at h1
    have : opRank a.estado_operativo ≠ opRank c.estado_operativo := by
      rw [← e2]; omega
    simp only [ne_eq, this, not_false_eq_true, if_true, decide_eq_true_eq]
    omega
  · simp only [ne_eq, e1, not_false_eq_true, if_true,
      decide_eq_true_eq] at h1
    simp only [ne_eq, e2, not_false_eq_true, if_true,
      decide_eq_true_eq] at h2
    by_cases e3 : opRank a.estado_operativo = opRank c.estado_operativo
    · omega
    · simp only [ne_eq, e3, not_false_eq_true, if_true, decide_eq_true_eq]
      omega

theorem rowLe001_total {cmp : String → String → Int}
    (htot : ∀ a b, cmp a b ≤ 0 ∨ cmp b a ≤ 0) (a b : RowWithTs) :
    (rowLe001 cmp a b || rowLe001 cmp b a) = true := by
  simp only [rowLe001]
  by_cases h : opRank001 a.estado_operativo = opRank001 b.estado_operativo
  · rw [h]
    simp only [ne_eq, not_true_eq_false, if_false, Bool.false_eq_true]
    rcases htot a.titulo b.titulo with hc | hc <;> simp [hc]
  · have h2 : opRank001 b.estado_operativo ≠ opRank001 a.estado_operativo :=
      fun he => h he.symm
    simp only [ne_eq, h, h2, not_false_eq_true, if_true]
    rcases Nat.lt_or_ge (opRank001 a.estado_operativo)
        (opRank001 b.estado_operativo) with hl | hl
    · simp [hl]
    · have : opRank001 b.estado_operativo < opRank001 a.estado_operativo :=
        Nat.lt_of_le_of_ne hl fun he => h he.symm
      simp [this]

theorem rowLe001_trans {cmp : String → String → Int}
    (htr : ∀ a b c, cmp a b ≤ 0 → cmp b c ≤ 0 → cmp a c ≤ 0)
    (a b c : RowWithTs) (h1 : rowLe001 cmp a b = true)
    (h2 : rowLe001 cmp b c = true) : rowLe001 cmp a c = true := by
  simp only [rowLe001] at h1 h2 ⊢
  by_cases e1 : opRank001 a.estado_operativo = opRank001 b.estado_operativo <;>
    by_cases e2 : opRank001 b.estado_operativo = opRank001 c.estado_operativo
  · rw [e1] at h1
    simp only [ne_eq, not_true_eq_false, if_false, Bool.false_eq_true,
      decide_eq_true_eq] at h1
    rw [e2] at h2
    simp only [ne_eq, not_true_eq_false, if_false, Bool.false_eq_true,
      decide_eq_true_eq] at h2
    rw [e1, e2]
    simp only [ne_eq, not_true_eq_false, if_false, Bool.false_eq_true,
      decide_eq_true_eq]
    exact htr _ _ _ h1 h2
  · simp only [ne_eq, e2, not_false_eq_true, if_true,
      decide_eq_true_eq] at h2
    have : opRank001 a.estado_operativo ≠ opRank001 c.estado_operativo := by
      rw [e1]; omega
    simp only [ne_eq, this, not_false_eq_true, if_true, decide_eq_true_eq]
    omega
  · simp only [ne_eq, e1, not_false_eq_true, if_true,
      decide_eq_true_eq] at h1
    have : opRank001 a.estado_operativo ≠ opRank001 c.estado_operativo := by
      rw [← e2]; omega
    simp only [ne_eq, this, not_false_eq_true, if_true, decide_eq_true_eq]
    omega
  · simp only [ne_eq, e1, not_false_eq_true, if_true,
      decide_eq_true_eq] at h1
    simp only [ne_eq, e2, not_false_eq_true, if_true,
      decide_eq_true_eq] at h2
    by_cases e3 : opRank001 a.estado_operativo = opRank001 c.estado_operativo
    · omega
    · simp only [ne_eq, e3, not_false_eq_true, if_true, decide_eq_true_eq]
      omega

/-- C9: for any total transitive locale comparison, the rows of the table
are a permutation of the input, ordered first by the fixed operational
rank Activa, Pausada, Inactiva, UNKNOWN and within equal rank by the
locale comparison of titles — in both copies of `tableFor`.  (The input
list itself is untouched: the code sorts the copy `[...rows]`, and in
this pure embedding values are immutable.) -/
theorem claim_C9_tableFor :
    ∀ cmp : String → String → Int,
      (∀ a b, cmp a b ≤ 0 ∨ cmp b a ≤ 0) →
      (∀ a b c, cmp a b ≤ 0 → cmp b c ≤ 0 → cmp a c ≤ 0) →
      (∀ rows : List Row,
        (tableForOrdered cmp rows).Perm rows ∧
        (tableForOrdered cmp rows).Pairwise fun a b =>
          opRank a.estado_operativo < opRank b.estado_operativo ∨
            (opRank a.estado_operativo = opRank b.estado_operativo ∧
              cmp a.titulo b.titulo ≤ 0)) ∧
      ∀ rows : List RowWithTs,
        (tableForOrdered001 cmp rows).Perm rows ∧
        (tableForOrdered001 cmp rows).Pairwise fun a b =>
          opRank001 a.estado_operativo < opRank001 b.estado_operativo ∨
            (opRank001 a.estado_operativo = opRank001 b.estado_operativo ∧
              cmp a.titulo b.titulo ≤ 0) := by
  intro cmp htot htr
  constructor
  · intro rows
    constructor
    · exact List.mergeSort_perm rows (rowLe cmp)
    · have hs := List.sorted_mergeSort
        (fun a b c => rowLe_trans htr a b c) (rowLe_total htot) rows
      refine hs.imp ?_
      intro a b hab
      simp only [rowLe] at hab
      by_cases e : opRank a.estado_operativo = opRank b.estado_operativo
      · simp only [ne_eq, e, not_true_eq_false, if_false, Bool.false_eq_true,
          decide_eq_true_eq] at hab
        exact Or.inr ⟨e, hab⟩
      · simp only [ne_eq, e, not_false_eq_true, if_true,
          decide_eq_true_eq] at hab
        exact Or.inl hab
  · intro rows
    constructor
    · exact List.mergeSort_perm rows (rowLe001 cmp)
    · have hs := List.sorted_mergeSort
        (fun a b c => rowLe001_trans htr a b c) (rowLe001_total htot) rows
      refine hs.imp ?_
      intro a b hab
      simp only [rowLe001] at hab
      by_cases e : opRank001 a.estado_operativo = opRank001 b.estado_operativo
      · simp only [ne_eq, e, not_true_eq_false, if_false, Bool.false_eq_true,
          decide_eq_true_eq] at hab
        exact Or.inr ⟨e, hab⟩
      · simp only [ne_eq, e, not_false_eq_true, if_true,
          decide_eq_true_eq] at hab
        exact Or.inl hab

/-- Witness for C9: the trivial collator (always 0) on a two-row list. -/
theorem claim_C9_witness :
    ((tableForOrdered (fun _ _ => 0)
        [Row.mk "1" "" Competencia.ganando Operativo.unknown "b",
          Row.mk "2" "" Competencia.ganando Operativo.activa "a"]).Perm
      [Row.mk "1" "" Competencia.ganando Operativo.unknown "b",
        Row.mk "2" "" Competencia.ganando Operativo.activa "a"] ∧
      (tableForOrdered (fun _ _ => 0)
        [Row.mk "1" "" Competencia.ganando Operativo.unknown "b",
          Row.mk "2" "" Competencia.ganando Operativo.activa "a"]).Pairwise
        fun a b =>
          opRank a.estado_operativo < opRank b.estado_operativo ∨
            (opRank a.estado_operativo = opRank b.estado_operativo ∧
              (fun (_ _ : String) => (0 : Int)) a.titulo b.titulo ≤ 0)) ∧
    ((tableForOrdered001 (fun _ _ => 0)
        [RowWithTs.mk "1" "" "Ganando" "UNKNOWN" "b" "" "t1",
          RowWithTs.mk "2" "" "Ganando" "Activa" "a" "" "t2"]).Perm
      [RowWithTs.mk "1" "" "Ganando" "UNKNOWN" "b" "" "t1",
        RowWithTs.mk "2" "" "Ganando" "Activa" "a" "" "t2"] ∧
      (tableForOrdered001 (fun _ _ => 0)
        [RowWithTs.mk "1" "" "Ganando" "UNKNOWN" "b" "" "t1",
          RowWithTs.mk "2" "" "Ganando" "Activa" "a" "" "t2"]).Pairwise
        fun a b =>
          opRank001 a.estado_operativo < opRank001 b.estado_operativo ∨
            (opRank001 a.estado_operativo = opRank001 b.estado_operativo ∧
              (fun (_ _ : String) => (0 : Int)) a.titulo b.titulo ≤ 0)) :=
  ⟨(claim_C9_tableFor (fun _ _ => 0) (fun _ _ => Or.inl (by simp))
      (fun _ _ _ _ _ => by simp)).1
    [Row.mk "1" "" Competencia.ganando Operativo.unknown "b",
      Row.mk "2" "" Competencia.ganando Operativo.activa "a"],
   (claim_C9_tableFor (fun _ _ => 0) (fun _ _ => Or.inl (by simp))
      (fun _ _ _ _ _ => by simp)).2
    [RowWithTs.mk "1" "" "Ganando" "UNKNOWN" "b" "" "t1",
      RowWithTs.mk "2" "" "Ganando" "Activa" "a" "" "t2"]⟩

/-- Witness for C2 (amended), applied on a concrete page on which
part_000's parser returns a record. -/
theorem claim_C2_witness :
    (parseHtmlForSku001
        "<div class=\"sc-list-item-row sc-list-item-row--catalog\"><span>SKU 9</span><a class=\"sc-list-item-row-description__title\">Baz</a></div></div></div>"
        "9").sku = (ParsedRecord.mk "9" "" "SIN_ESTADO" "UNKNOWN" "Baz").sku ∧
    (parseHtmlForSku001
        "<div class=\"sc-list-item-row sc-list-item-row--catalog\"><span>SKU 9</span><a class=\"sc-list-item-row-description__title\">Baz</a></div></div></div>"
        "9").estado_competencia =
      (ParsedRecord.mk "9" "" "SIN_ESTADO" "UNKNOWN" "Baz").estado_competencia :=
  claim_C2_amended
    "<div class=\"sc-list-item-row sc-list-item-row--catalog\"><span>SKU 9</span><a class=\"sc-list-item-row-description__title\">Baz</a></div></div></div>"
    "9" ⟨"9", "", "SIN_ESTADO", "UNKNOWN", "Baz"⟩ (by decide)

end MonitorMELI
